import Mathlib

/-!
Verification of the agent tool-calling loop and transport layer of the
grok-cli repository, as a shallow embedding in Lean 4.

Embedding conventions:
* JavaScript strings are `String`; `undefined`/`null`-able fields are `Option`.
* JavaScript truthiness on strings ("" is falsy) is made explicit via `jsOr`.
* `JSON.parse` is an external runtime facility; it is abstracted as a
  parameter `parse : String → Except String JsonVal` (failure carries the
  SyntaxError message).  `JSON.stringify` is likewise a parameter.
* External collaborators (tool implementations, the MCP manager, the token
  counter, the model backend) are parameters, matching the request/response
  contracts in the source.
* Wall-clock artifacts (timestamps, `Date.now`) are dropped or passed as
  opaque string parameters; they carry no control-flow weight.
* Logger calls and `yield`ed events are reified as trace items so ordering
  properties can be stated.
-/

namespace GrokCli

/-- JavaScript `a || b` on a possibly-absent string: empty string is falsy. -/
def jsOr (a : Option String) (b : String) : String :=
  match a with
  | some s => if s = "" then b else s
  | none => b

/-- JavaScript `s || ''`. -/
def jsOrEmpty (a : Option String) : String := jsOr a ""

/-- Test that `pat` is a prefix of `s`, over character lists. -/
def listHasPre : List Char → List Char → Bool
  | [], _ => true
  | _ :: _, [] => false
  | p :: ps, c :: cs => p == c && listHasPre ps cs

def listContainsAux : List Char → List Char → Bool
  | [], pat => listHasPre pat []
  | c :: cs, pat => listHasPre pat (c :: cs) || listContainsAux cs pat

/-- Substring test, JavaScript `msg.includes(pat)`. -/
def strContains (s pat : String) : Bool := listContainsAux s.data pat.data

/-- JavaScript `s.startsWith(pre)`. -/
def jsStartsWith (s pre : String) : Bool := listHasPre pre.data s.data

/-- Abstract stand-in for a parsed JSON value (the result of `JSON.parse`). -/
structure JsonVal where
  val : String
deriving DecidableEq, Repr

/-! ## Transport layer: error classification (src/grok/client.ts) -/

/-- Shape of a raw transport/backend error as inspected by `classifyError`:
`error?.name`, `error?.code`, `error?.message`, and the three places a
status can live (`error?.status ?? error?.statusCode ?? error?.response?.status`). -/
structure RawError where
  name : Option String
  code : Option String
  message : String
  status : Option Nat
  statusCode : Option Nat
  responseStatus : Option Nat
deriving DecidableEq, Repr

/-- Source: `error?.status ?? error?.statusCode ?? error?.response?.status ?? null`. -/
def statusOf (e : RawError) : Option Nat :=
  (e.status.orElse fun _ => e.statusCode).orElse fun _ => e.responseStatus

structure ApiErrorInfo where
  status : Option Nat
  code : String
  message : String
  retryable : Bool
deriving DecidableEq, Repr

/-- Timeout / abort test (first branch of `classifyError`). -/
def isTimeoutErr (e : RawError) : Bool :=
  e.name == some "AbortError" || e.code == some "ECONNABORTED" ||
  strContains e.message "timeout" || strContains e.message "Timeout"

/-- Network-failure test (second branch of `classifyError`). -/
def isNetworkErr (e : RawError) : Bool :=
  e.code == some "ECONNREFUSED" || e.code == some "ENOTFOUND" ||
  e.code == some "ECONNRESET" ||
  strContains e.message "fetch failed" || strContains e.message "network" ||
  strContains e.message "bad port" || strContains e.message "Cannot connect"

/-- Malformed-response test (post-status branch of `classifyError`). -/
def isMalformedMsg (msg : String) : Bool :=
  strContains msg "JSON" || strContains msg "Unexpected token" || strContains msg "parse"

def statusStr : Option Nat → String
  | some n => toString n
  | none => "null"

/-- Source: `status !== null && status >= 500`. -/
def isServerStatus : Option Nat → Bool
  | some s => 500 ≤ s
  | none => false

/-- The function `classifyError` from src/grok/client.ts, branch for branch. -/
def classifyError (e : RawError) : ApiErrorInfo :=
  let msg := e.message
  let status := statusOf e
  if isTimeoutErr e then
    ⟨none, "timeout", "Request timed out. Please try again.", true⟩
  else if isNetworkErr e then
    ⟨none, "network", "Network error — could not reach the Grok API. Check your internet connection and base URL.", true⟩
  else if status == some 400 then
    ⟨status, "bad_request", "Bad request (400). Check your request parameters. This can also indicate an incorrect API key — verify your key at https://console.x.ai.", false⟩
  else if status == some 401 then
    ⟨status, "auth", "Authentication failed (401). Your API key is invalid or expired. Update it in ~/.grok/user-settings.json or set the GROK_API_KEY environment variable. Get a new key at https://console.x.ai.", false⟩
  else if status == some 403 then
    ⟨status, "auth", "Access denied (403). Your API key does not have permission, or your account may be blocked. Contact your team admin or check https://console.x.ai.", false⟩
  else if status == some 404 then
    ⟨status, "not_found", "Not found (404). The specified model may not exist or the API endpoint URL is incorrect. Check the model name and API base URL.", false⟩
  else if status == some 429 then
    ⟨status, "rate_limit", "Rate limited (429). Retrying automatically with backoff... To request higher limits, email support@x.ai.", true⟩
  else if isServerStatus status then
    ⟨status, "server", "Grok API server error (" ++ statusStr status ++ "). The service may be temporarily unavailable. Check https://status.x.ai for updates.", true⟩
  else if isMalformedMsg msg then
    ⟨status, "malformed", "Received a malformed response from the Grok API.", true⟩
  else
    ⟨status, "unknown", msg, false⟩

/-! ## Transport layer: retry loop (GrokClient.chat / chatStream) -/

def MAX_RETRIES : Nat := 3
def BASE_DELAY_MS : ℚ := 1000

/-- A model-emitted tool call as stored by the agent:
`{id, function: {name, arguments}}` (the constant `type: "function"` tag
is omitted). -/
structure ToolCall where
  id : String
  name : String
  arguments : String
deriving DecidableEq, Repr

/-- One trace item of a transport call: the logger call sites and the sleeps,
reified so ordering can be stated. -/
inductive ChatTraceEv where
  | reqLog (messageCount : Nat)
  | errLog (statusOrCode : String) (msg : String)
  | respLog
  | sleepEv (ms : ℚ)
deriving DecidableEq

/-- Source: `info.status ?? info.code` as rendered into `logApiError`. -/
def statusOrCodeOf (info : ApiErrorInfo) : String :=
  match info.status with
  | some n => toString n
  | none => info.code

/-- Input shape of an AI-SDK tool call reported by `generateText`:
`input` may be a raw string or an already-parsed value. -/
inductive SdkInput where
  | str (s : String)
  | val (v : JsonVal)
deriving DecidableEq, Repr

structure SdkToolCall where
  toolCallId : Option String
  id : Option String
  toolName : Option String
  name : Option String
  input : Option SdkInput
deriving DecidableEq, Repr

/-- Buffered AI-SDK response shape (`generateText` result accessors used). -/
structure SdkResponse where
  text : String
  toolCalls : List SdkToolCall
  finishReason : Option String
deriving DecidableEq, Repr

/-- Conversion `GrokClient.convertToolCalls`.  Here `stringify` abstracts `JSON.stringify`;
`nowId` abstracts the `Date.now()` id fallback. -/
def convertToolCalls (stringify : JsonVal → String) (nowId : String)
    (tcs : List SdkToolCall) : List ToolCall :=
  tcs.map fun tc =>
    { id := jsOr tc.toolCallId (jsOr tc.id ("call_" ++ nowId))
      name := jsOr tc.toolName (jsOrEmpty tc.name)
      arguments :=
        match tc.input with
        | some (.str s) => s
        | some (.val v) => stringify v
        | none => "\x7b\x7d" }

structure GrokRespMessage where
  role : String
  content : Option String
  tool_calls : Option (List ToolCall)
deriving DecidableEq, Repr

structure GrokChoice where
  message : GrokRespMessage
  finish_reason : String
deriving DecidableEq, Repr

structure GrokResponse where
  choices : List GrokChoice
deriving DecidableEq, Repr

/-- The provider-neutral response built by `chat` on success
(`response.text || null`, `convertToolCalls(...) || undefined` — note a
JavaScript empty array is truthy, so `tool_calls` is always present,
possibly empty; `finish_reason` defaults to "stop"). -/
def mkGrokResponse (stringify : JsonVal → String) (nowId : String)
    (r : SdkResponse) : GrokResponse :=
  ⟨[{ message :=
        { role := "assistant"
          content := if r.text = "" then none else some r.text
          tool_calls := some (convertToolCalls stringify nowId r.toolCalls) }
      finish_reason := jsOr r.finishReason "stop" }]⟩

structure ChatResult where
  result : Except ApiErrorInfo GrokResponse
  attempts : Nat
  trace : List ChatTraceEv

/-- The retry loop body of `GrokClient.chat`, recursing over the remaining
attempt budget.  `backend` gives the outcome of the `generateText` call at
each attempt index; `jitter a` abstracts `Math.random() * 500` at attempt
`a`.  `lastErr` mirrors the `lastError` variable used by the post-loop
throw (unreachable from `chat`, which supplies a full budget). -/
def chatAux (backend : Nat → Except RawError SdkResponse) (jitter : Nat → ℚ)
    (stringify : JsonVal → String) (nowId : String) :
    Nat → Nat → RawError → ChatResult
  | 0, _, lastErr => ⟨.error (classifyError lastErr), 0, []⟩
  | remaining + 1, attempt, _ =>
    match backend attempt with
    | .ok resp =>
      ⟨.ok (mkGrokResponse stringify nowId resp), 1, [.respLog]⟩
    | .error e =>
      let info := classifyError e
      let errEv := ChatTraceEv.errLog (statusOrCodeOf info) e.message
      if info.retryable = true ∧ attempt < MAX_RETRIES then
        let d := BASE_DELAY_MS * 2 ^ attempt + jitter attempt
        let rest := chatAux backend jitter stringify nowId remaining (attempt + 1) e
        ⟨rest.result, rest.attempts + 1, errEv :: .sleepEv d :: rest.trace⟩
      else
        ⟨.error info, 1, [errEv]⟩

def defaultRawError : RawError := ⟨none, none, "", none, none, none⟩

/-- Method `GrokClient.chat`: one request log, then the attempt loop with full
budget `MAX_RETRIES + 1`. -/
def chat (backend : Nat → Except RawError SdkResponse) (jitter : Nat → ℚ)
    (stringify : JsonVal → String) (nowId : String)
    (messageCount : Nat) : ChatResult :=
  let r := chatAux backend jitter stringify nowId (MAX_RETRIES + 1) 0 defaultRawError
  ⟨r.result, r.attempts, .reqLog messageCount :: r.trace⟩

/-- One AI-SDK stream chunk as consumed by `chatStream`
(`text-delta`, `tool-call`, or any other chunk type, which is ignored). -/
inductive SdkChunk where
  | textDelta (s : String)
  | toolCallC (toolCallId : String) (toolName : String) (input : JsonVal)
  | otherChunk
deriving DecidableEq, Repr

/-- One attempt of the streaming backend: the chunks it delivers before
either finishing cleanly or failing. -/
structure SdkStreamAttempt where
  chunks : List SdkChunk
  outcome : Except RawError Unit

/-- A delta-shaped tool call inside a yielded stream chunk. -/
structure DeltaToolCall where
  id : String
  name : String
  arguments : Option String
deriving DecidableEq, Repr

structure StreamDelta where
  content : Option String
  tool_calls : Option (List DeltaToolCall)
deriving DecidableEq, Repr

/-- One chunk yielded by `chatStream` (`chunk.choices[0]?.delta`). -/
structure StreamChunk where
  delta : Option StreamDelta
deriving DecidableEq, Repr

/-- Conversion of one AI-SDK chunk into the yielded wire shape
(the two `yield` statements inside the `for await` of `chatStream`). -/
def convertChunk (stringify : JsonVal → String) : SdkChunk → List StreamChunk
  | .textDelta s => [⟨some ⟨some s, none⟩⟩]
  | .toolCallC cid cname input =>
    [⟨some ⟨none, some [⟨cid, cname, some (stringify input)⟩]⟩⟩]
  | .otherChunk => []

structure ChatStreamResult where
  yielded : List StreamChunk
  result : Except ApiErrorInfo Unit
  attempts : Nat
  trace : List ChatTraceEv

/-- The retry loop body of `GrokClient.chatStream`.  Chunks already yielded
by a failed attempt have been delivered to the caller and remain in
`yielded` when a retry re-issues the whole call. -/
def chatStreamAux (backendS : Nat → SdkStreamAttempt) (jitter : Nat → ℚ)
    (stringify : JsonVal → String) :
    Nat → Nat → RawError → ChatStreamResult
  | 0, _, lastErr => ⟨[], .error (classifyError lastErr), 0, []⟩
  | remaining + 1, attempt, _ =>
    let att := backendS attempt
    let ys := att.chunks.flatMap (convertChunk stringify)
    match att.outcome with
    | .ok () => ⟨ys, .ok (), 1, [.respLog]⟩
    | .error e =>
      let info := classifyError e
      let errEv := ChatTraceEv.errLog (statusOrCodeOf info) e.message
      if info.retryable = true ∧ attempt < MAX_RETRIES then
        let d := BASE_DELAY_MS * 2 ^ attempt + jitter attempt
        let rest := chatStreamAux backendS jitter stringify remaining (attempt + 1) e
        ⟨ys ++ rest.yielded, rest.result, rest.attempts + 1,
          errEv :: .sleepEv d :: rest.trace⟩
      else
        ⟨ys, .error info, 1, [errEv]⟩

/-- Method `GrokClient.chatStream`: one request log, then the attempt loop. -/
def chatStream (backendS : Nat → SdkStreamAttempt) (jitter : Nat → ℚ)
    (stringify : JsonVal → String) (messageCount : Nat) : ChatStreamResult :=
  let r := chatStreamAux backendS jitter stringify (MAX_RETRIES + 1) 0 defaultRawError
  ⟨r.yielded, r.result, r.attempts, .reqLog messageCount :: r.trace⟩

/-! ## Tool dispatcher (GrokAgent.executeTool / executeMCPTool) -/

/-- Uniform tool result envelope (src/types). -/
structure ToolResult where
  success : Bool
  output : Option String
  error : Option String
deriving DecidableEq, Repr

/-- One content item returned by an MCP server (`text`, `resource`, or some
other shape whose JavaScript `String(item)` rendering is carried verbatim). -/
inductive McpItem where
  | text (s : String)
  | resource (uri : Option String)
  | other (rendered : String)
deriving DecidableEq, Repr

structure McpCallResult where
  isError : Bool
  content : List McpItem
deriving DecidableEq, Repr

/-- External collaborators of the dispatcher.  Each may fail (a rejected
promise), carrying the raw `error.message`; `parse` abstracts `JSON.parse`
with the SyntaxError message on failure. -/
structure ExecEnv where
  parse : String → Except String JsonVal
  hasMorph : Bool
  viewFile : JsonVal → Except String ToolResult
  writeFile : JsonVal → Except String ToolResult
  strReplace : JsonVal → Except String ToolResult
  morphEdit : JsonVal → Except String ToolResult
  bashExec : JsonVal → Except String ToolResult
  globTool : JsonVal → Except String ToolResult
  grepTool : JsonVal → Except String ToolResult
  createTodo : JsonVal → Except String ToolResult
  updateTodo : JsonVal → Except String ToolResult
  searchTool : JsonVal → Except String ToolResult
  mcpCall : String → JsonVal → Except String McpCallResult

/-- Rendering of one MCP content item in `executeMCPTool`'s success path. -/
def mcpItemText : McpItem → String
  | .text s => s
  | .resource uri => "Resource: " ++ jsOr uri "Unknown"
  | .other rendered => rendered

/-- Source: `(result.content[0] as any)?.text || "MCP tool error"`. -/
def mcpFirstText (content : List McpItem) : String :=
  match content.head? with
  | some (.text s) => if s = "" then "MCP tool error" else s
  | _ => "MCP tool error"

/-- Method `GrokAgent.executeMCPTool`: parses the arguments, forwards to the MCP
manager, and never throws (its own try/catch). -/
def executeMCPTool (env : ExecEnv) (tc : ToolCall) : ToolResult :=
  match env.parse tc.arguments with
  | .error m => ⟨false, none, some ("MCP tool execution error: " ++ m)⟩
  | .ok args =>
    match env.mcpCall tc.name args with
    | .error m => ⟨false, none, some ("MCP tool execution error: " ++ m)⟩
    | .ok r =>
      if r.isError then
        ⟨false, none, some (mcpFirstText r.content)⟩
      else
        let output := String.intercalate "\n" (r.content.map mcpItemText)
        ⟨true, some (if output = "" then "Success" else output), none⟩

/-- The closed set of built-in tool names routed by `executeTool`. -/
def builtinToolNames : List String :=
  ["view_file", "write_file", "create_file", "str_replace_editor", "edit_file",
   "bash", "glob", "grep", "create_todo_list", "update_todo_list", "search"]

/-- Collaborator outcome normalization: a rejected promise is converted by
the surrounding catch into a failure envelope. -/
def runCollab (r : Except String ToolResult) : ToolResult :=
  match r with
  | .ok res => res
  | .error m => ⟨false, none, some ("Tool execution error: " ++ m)⟩

/-- Method `GrokAgent.executeTool`: parse the raw argument JSON, route by name,
catch every failure into a `{success:false, error}` envelope.  Field
renaming between wire arguments and collaborator parameters happens inside
the (out-of-scope) collaborators. -/
def executeTool (env : ExecEnv) (tc : ToolCall) : ToolResult :=
  match env.parse tc.arguments with
  | .error m => ⟨false, none, some ("Tool execution error: " ++ m)⟩
  | .ok args =>
    match tc.name with
    | "view_file" => runCollab (env.viewFile args)
    | "write_file" => runCollab (env.writeFile args)
    | "create_file" => runCollab (env.writeFile args)
    | "str_replace_editor" => runCollab (env.strReplace args)
    | "edit_file" =>
      if env.hasMorph then runCollab (env.morphEdit args)
      else ⟨false, none, some "Morph Fast Apply not available. Please set MORPH_API_KEY environment variable to use this feature."⟩
    | "bash" => runCollab (env.bashExec args)
    | "glob" => runCollab (env.globTool args)
    | "grep" => runCollab (env.grepTool args)
    | "create_todo_list" => runCollab (env.createTodo args)
    | "update_todo_list" => runCollab (env.updateTodo args)
    | "search" => runCollab (env.searchTool args)
    | name =>
      if jsStartsWith name "mcp__" then executeMCPTool env tc
      else ⟨false, none, some ("Unknown tool: " ++ name)⟩

/-- The collaborator `executeTool` routes a built-in name to (`edit_file`
only when the fast-apply editor is configured); `none` for non-built-ins. -/
def builtinCollab (env : ExecEnv) : String → Option (JsonVal → Except String ToolResult)
  | "view_file" => some env.viewFile
  | "write_file" => some env.writeFile
  | "create_file" => some env.writeFile
  | "str_replace_editor" => some env.strReplace
  | "edit_file" => if env.hasMorph then some env.morphEdit else none
  | "bash" => some env.bashExec
  | "glob" => some env.globTool
  | "grep" => some env.grepTool
  | "create_todo_list" => some env.createTodo
  | "update_todo_list" => some env.updateTodo
  | "search" => some env.searchTool
  | _ => none

/-! ## Agent loop data model (GrokAgent) -/

inductive ToolOutput where
  | text (v : String)
  | errorText (v : String)
deriving DecidableEq, Repr

/-- AI-SDK structured content parts of a message. -/
inductive ContentPart where
  | text (s : String)
  | toolCallP (id name : String) (input : JsonVal)
  | toolResultP (id name : String) (output : ToolOutput)
deriving DecidableEq, Repr

inductive MsgContent where
  | str (s : String)
  | parts (ps : List ContentPart)
deriving DecidableEq, Repr

/-- One message of the replayed history. -/
structure Msg where
  role : String
  content : MsgContent
deriving DecidableEq, Repr

inductive EntryType where
  | user
  | assistant
  | toolResultE
  | toolCallE
deriving DecidableEq, Repr

/-- One display/audit chat entry (timestamps dropped: wall clock). -/
structure ChatEntry where
  type : EntryType
  content : String
  toolCalls : Option (List ToolCall)
  toolCall : Option ToolCall
  toolResult : Option ToolResult
  isStreaming : Bool
deriving DecidableEq, Repr

/-- The reply message the agent reads from `chat` (`choices[0].message`). -/
structure GrokMessageOut where
  content : Option String
  tool_calls : Option (List ToolCall)
deriving DecidableEq, Repr

/-- Source: `responseMessage.tool_calls && responseMessage.tool_calls.length > 0`. -/
def hasToolCalls (m : GrokMessageOut) : Bool :=
  match m.tool_calls with
  | some l => l.length > 0
  | none => false

/-- The tool-call content parts of an assistant message, parsed in emission
order; fails at the first tool call whose arguments are not valid JSON
(mirrors the throwing `JSON.parse` inside the loop). -/
def parseToolCallParts (parse : String → Except String JsonVal) :
    List ToolCall → Except String (List ContentPart)
  | [] => .ok []
  | tc :: rest =>
    match parse tc.arguments with
    | .error m => .error m
    | .ok v =>
      match parseToolCallParts parse rest with
      | .error m => .error m
      | .ok ps => .ok (.toolCallP tc.id tc.name v :: ps)

/-- Method `GrokAgent.buildAssistantMessage`.  May throw (Except.error) a raw
SyntaxError message when a tool call carries malformed argument JSON. -/
def buildAssistantMessage (parse : String → Except String JsonVal)
    (m : GrokMessageOut) : Except String Msg :=
  if hasToolCalls m then
    let textParts : List ContentPart :=
      match m.content with
      | some s => if s = "" then [] else [.text s]
      | none => []
    match parseToolCallParts parse (m.tool_calls.getD []) with
    | .error msg => .error msg
    | .ok callParts => .ok ⟨"assistant", .parts (textParts ++ callParts)⟩
  else
    .ok ⟨"assistant", .str (jsOrEmpty m.content)⟩

/-- Method `GrokAgent.buildToolResultMessage`. -/
def buildToolResultMessage (tc : ToolCall) (r : ToolResult) : Msg :=
  ⟨"tool", .parts [.toolResultP tc.id tc.name
    (if r.success then .text (jsOr r.output "Success")
     else .errorText (jsOr r.error "Error"))]⟩

/-- The chat-log entry recorded for one tool result. -/
def toolResultEntry (tc : ToolCall) (r : ToolResult) : ChatEntry :=
  { type := .toolResultE
    content := if r.success then jsOr r.output "Success" else jsOr r.error "Error occurred"
    toolCalls := none
    toolCall := some tc
    toolResult := some r
    isStreaming := false }

/-- The chat-log entry recorded for one buffered assistant reply. -/
def assistantEntry (m : GrokMessageOut) : ChatEntry :=
  ⟨.assistant, jsOrEmpty m.content, m.tool_calls, none, none, false⟩

/-- The terminal informational entry appended when the round limit is hit. -/
def maxRoundsEntry : ChatEntry :=
  ⟨.assistant, "\n\nMaximum tool execution rounds reached. Stopping to prevent infinite loops.", none, none, none, false⟩

/-- Session state owned by one agent instance. -/
structure AgentState where
  messages : List Msg
  history : List ChatEntry
deriving DecidableEq, Repr

/-- An exception escaping the buffered loop: either the structured API
error or a raw JavaScript error (e.g. the SyntaxError of `JSON.parse`). -/
inductive JsError where
  | api (info : ApiErrorInfo)
  | js (msg : String)
deriving DecidableEq, Repr

/-! ## Buffered agent loop (GrokAgent.processUserMessage) -/

/-- Sequential execution of one round's tool calls: for each call, run the
dispatcher, append the audit entry, append the tool-result message.
Also returns the dispatched calls in dispatch order (instrumentation). -/
def runToolCalls (env : ExecEnv) : List ToolCall → AgentState → AgentState × List ToolCall
  | [], st => (st, [])
  | tc :: rest, st =>
    let r := executeTool env tc
    let st1 : AgentState :=
      { messages := st.messages ++ [buildToolResultMessage tc r]
        history := st.history ++ [toolResultEntry tc r] }
    let (st2, ex) := runToolCalls env rest st1
    (st2, tc :: ex)

/-- Output of the buffered loop.  `execs`, `rounds`, `calls` and
`exhausted` are instrumentation of the run (dispatch order, final
`toolRounds`, number of `grokClient.chat` invocations, whether the round
limit was hit); `result` is `.error` when an exception propagates to the
caller, and carries the final `currentResponse` (possibly `null`) otherwise. -/
structure PumOut where
  result : Except JsError (Option GrokMessageOut)
  state : AgentState
  execs : List ToolCall
  rounds : Nat
  calls : Nat
  exhausted : Bool

/-- The `while (toolRounds < this.maxToolRounds)` loop of
`processUserMessage`, recursing on the remaining round budget.
`oracle i` is the outcome of the `i`-th `grokClient.chat` call. -/
def pumLoop (env : ExecEnv) (oracle : Nat → Except ApiErrorInfo GrokMessageOut) :
    Nat → Nat → AgentState → Option GrokMessageOut → PumOut
  | 0, _, st, last => ⟨.ok last, st, [], 0, 0, true⟩
  | fuel + 1, calls, st, _ =>
    match oracle calls with
    | .error info => ⟨.error (.api info), st, [], 0, 1, false⟩
    | .ok rm =>
      match buildAssistantMessage env.parse rm with
      | .error m => ⟨.error (.js m), st, [], 0, 1, false⟩
      | .ok am =>
        let st1 : AgentState :=
          { messages := st.messages ++ [am]
            history := st.history ++ [assistantEntry rm] }
        if hasToolCalls rm then
          let (st2, ex) := runToolCalls env (rm.tool_calls.getD []) st1
          let rest := pumLoop env oracle fuel (calls + 1) st2 (some rm)
          ⟨rest.result, rest.state, ex ++ rest.execs, rest.rounds + 1,
            rest.calls + 1, rest.exhausted⟩
        else
          ⟨.ok (some rm), st1, [], 0, 1, false⟩

/-- Method `GrokAgent.processUserMessage`: append the user message, run the round
loop, and append the terminal notice when the round limit was reached. -/
def processUserMessage (env : ExecEnv)
    (oracle : Nat → Except ApiErrorInfo GrokMessageOut)
    (maxToolRounds : Nat) (st : AgentState) (message : String) : PumOut :=
  let st0 : AgentState := { st with messages := st.messages ++ [⟨"user", .str message⟩] }
  let r := pumLoop env oracle maxToolRounds 0 st0 none
  if r.exhausted then
    { r with state := { r.state with history := r.state.history ++ [maxRoundsEntry] } }
  else r

/-! ## Streaming agent loop (GrokAgent.processUserMessageStream)

The streaming entry point is modelled as a trace-producing function: every
`yield`ed event, every read of the cancellation flag, and every tool
dispatch is a trace item.  Cooperative cancellation is modelled by a
threshold `cancelAt`: the `k`-th read of `abortController.signal.aborted`
(0-indexed) observes `true` iff `cancelAt ≤ k`, which captures exactly the
monotone flag set once by `abortCurrentOperation`. -/

inductive SEvent where
  | content (s : String)
  | toolCallsEv (l : List ToolCall)
  | toolResultEv (tc : ToolCall) (r : ToolResult)
  | tokenCount (n : Nat)
  | done
deriving DecidableEq, Repr

inductive TraceItem where
  | ev (e : SEvent)
  | check (aborted : Bool)
  | exec (tc : ToolCall)
deriving DecidableEq, Repr

def cancelNotice : String := "\n\n[Operation cancelled by user]"

def maxRoundsNotice : String :=
  "\n\nMaximum tool execution rounds reached. Stopping to prevent infinite loops."

/-- The trace every cancellation site produces: the observed check, the
final notice, the final `done`. -/
def cancelTail : List TraceItem :=
  [.check true, .ev (.content cancelNotice), .ev .done]

/-- Accumulation of one delta-shaped tool call into the round's list,
keyed by call id: a fragment for an already-seen id is concatenated onto
that call's argument text, otherwise a new entry is appended.  (Ids in the
accumulator are unique — a new entry is only added when its id is absent —
so updating every match coincides with the source's update of the first
`find` hit.) -/
def addDeltaToolCall (acc : List ToolCall) (tc : DeltaToolCall) : List ToolCall :=
  if acc.any (fun a => a.id == tc.id) then
    acc.map fun a =>
      if a.id == tc.id then { a with arguments := a.arguments ++ tc.arguments.getD "" }
      else a
  else
    acc ++ [⟨tc.id, tc.name, tc.arguments.getD ""⟩]

/-- Outcome of consuming one round's stream: either cancellation was
observed at a per-chunk check, or the stream was fully drained, leaving
the accumulated text, tool calls and output-token count. -/
inductive ConsumeOut where
  | cancelled (trace : List TraceItem) (k : Nat)
  | drained (trace : List TraceItem) (acc : String) (atc : List ToolCall)
      (totalOut : Nat) (k : Nat)

def consPrepend (pre : List TraceItem) : ConsumeOut → ConsumeOut
  | .cancelled tr k => .cancelled (pre ++ tr) k
  | .drained tr a b c k => .drained (pre ++ tr) a b c k

/-- The `for await (const chunk of stream)` body: check the flag, skip
chunks without a delta, emit and accumulate text deltas, accumulate
tool-call deltas, emit a running token count. -/
def consumeChunks (cancelAt inputTokens : Nat) :
    List StreamChunk → Nat → String → List ToolCall → Nat → ConsumeOut
  | [], k, acc, atc, tot => .drained [] acc atc tot k
  | ch :: rest, k, acc, atc, tot =>
    if cancelAt ≤ k then .cancelled cancelTail (k + 1)
    else
      match ch.delta with
      | none =>
        consPrepend [.check false] (consumeChunks cancelAt inputTokens rest (k + 1) acc atc tot)
      | some d =>
        let contentEvs : List TraceItem :=
          match d.content with
          | some s => if s = "" then [] else [.ev (.content s)]
          | none => []
        let acc' :=
          match d.content with
          | some s => if s = "" then acc else acc ++ s
          | none => acc
        let atc' :=
          match d.tool_calls with
          | some l => l.foldl addDeltaToolCall atc
          | none => atc
        let tot' := tot + 1
        consPrepend (.check false :: contentEvs ++ [.ev (.tokenCount (inputTokens + tot'))])
          (consumeChunks cancelAt inputTokens rest (k + 1) acc' atc' tot')

/-- The chat-log entry recorded for one streamed assistant reply (the
accumulated tool-call list is always stored, possibly empty). -/
def streamAssistantEntry (acc : String) (atc : List ToolCall) : ChatEntry :=
  ⟨.assistant, acc, some atc, none, none, true⟩

/-- The user-visible message of the generator-level catch. -/
def streamErrMsg : JsError → String
  | .api info => "\n\nAPI Error: " ++ info.message
  | .js m => "\n\nSorry, I encountered an error: " ++ m

/-- The generator-level catch: re-check the flag (a cancellation may be the
root cause), otherwise record and surface the error as one final `content`
followed by `done` — never re-raised. -/
def catchPath (cancelAt : Nat) (st : AgentState) (e : JsError) (k : Nat) :
    List TraceItem × AgentState :=
  if cancelAt ≤ k then (cancelTail, st)
  else
    let m := streamErrMsg e
    ([.check false, .ev (.content m), .ev .done],
     { st with history := st.history ++ [⟨.assistant, m, none, none, none, false⟩] })

/-- Outcome of the sequential tool-execution phase of one streamed round. -/
inductive ToolPhaseOut where
  | cancelledT (trace : List TraceItem) (st : AgentState) (k : Nat)
  | completedT (trace : List TraceItem) (st : AgentState) (k : Nat)

/-- Streamed tool execution: before each tool, check the flag; then
dispatch, append the audit entry, emit the `tool_result` event, append the
tool-result message. -/
def runToolsStream (env : ExecEnv) (cancelAt : Nat) :
    List ToolCall → AgentState → Nat → ToolPhaseOut
  | [], st, k => .completedT [] st k
  | tc :: rest, st, k =>
    if cancelAt ≤ k then .cancelledT cancelTail st (k + 1)
    else
      let r := executeTool env tc
      let st1 : AgentState :=
        { messages := st.messages ++ [buildToolResultMessage tc r]
          history := st.history ++ [toolResultEntry tc r] }
      match runToolsStream env cancelAt rest st1 (k + 1) with
      | .cancelledT tr st2 k2 =>
        .cancelledT (.check false :: .exec tc :: .ev (.toolResultEv tc r) :: tr) st2 k2
      | .completedT tr st2 k2 =>
        .completedT (.check false :: .exec tc :: .ev (.toolResultEv tc r) :: tr) st2 k2

def tpTrace : ToolPhaseOut → List TraceItem
  | .cancelledT tr _ _ => tr
  | .completedT tr _ _ => tr

def tpState : ToolPhaseOut → AgentState
  | .cancelledT _ st _ => st
  | .completedT _ st _ => st

/-- One round of `grokClient.chatStream` as observed by the agent: the
yielded chunks, then a clean end or a thrown structured error. -/
structure RoundStream where
  chunks : List StreamChunk
  outcome : Except ApiErrorInfo Unit

/-- The `while (toolRounds < this.maxToolRounds)` loop of
`processUserMessageStream`, recursing on the remaining round budget. -/
def streamLoop (env : ExecEnv) (oracle : Nat → RoundStream)
    (countTokens : List Msg → Nat) (cancelAt : Nat) :
    Nat → Nat → Nat → AgentState → Nat → Nat → List TraceItem × AgentState
  | 0, _, _, st, _, _ => ([.ev (.content maxRoundsNotice), .ev .done], st)
  | fuel + 1, roundIdx, k, st, inputTokens, totalOut =>
    if cancelAt ≤ k then (cancelTail, st)
    else
      let rs := oracle roundIdx
      match consumeChunks cancelAt inputTokens rs.chunks (k + 1) "" [] totalOut with
      | .cancelled tr _ => (.check false :: tr, st)
      | .drained tr acc atc totalOut' k' =>
        match rs.outcome with
        | .error info =>
          let (ctr, st2) := catchPath cancelAt st (.api info) k'
          (.check false :: tr ++ ctr, st2)
        | .ok () =>
          let tcEvs : List TraceItem :=
            if atc.length > 0 then [.ev (.toolCallsEv atc)] else []
          let rm : GrokMessageOut :=
            { content := if acc = "" then none else some acc
              tool_calls := if atc.length > 0 then some atc else none }
          match buildAssistantMessage env.parse rm with
          | .error m =>
            let (ctr, st2) := catchPath cancelAt st (.js m) k'
            (.check false :: tr ++ tcEvs ++ ctr, st2)
          | .ok am =>
            let st1 : AgentState :=
              { messages := st.messages ++ [am]
                history := st.history ++ [streamAssistantEntry acc atc] }
            if atc.length > 0 then
              match runToolsStream env cancelAt atc st1 k' with
              | .cancelledT tr2 st2 _ =>
                (.check false :: tr ++ tcEvs ++ tr2, st2)
              | .completedT tr2 st2 k2 =>
                let inputTokens' := countTokens st2.messages
                let (tr3, st3) :=
                  streamLoop env oracle countTokens cancelAt fuel (roundIdx + 1) k2 st2 inputTokens' totalOut'
                (.check false :: tr ++ tcEvs ++ tr2 ++
                  (.ev (.tokenCount (inputTokens' + totalOut')) :: tr3), st3)
            else
              (.check false :: tr ++ tcEvs ++ [.ev .done], st1)

/-- Method `GrokAgent.processUserMessageStream`: append the user entry and user
message, emit the initial token count, then run the round loop. -/
def processUserMessageStream (env : ExecEnv) (oracle : Nat → RoundStream)
    (countTokens : List Msg → Nat) (cancelAt maxToolRounds : Nat)
    (st : AgentState) (message : String) : List TraceItem × AgentState :=
  let st0 : AgentState :=
    { messages := st.messages ++ [⟨"user", .str message⟩]
      history := st.history ++ [⟨.user, message, none, none, none, false⟩] }
  let it := countTokens st0.messages
  let (tr, st') := streamLoop env oracle countTokens cancelAt maxToolRounds 0 0 st0 it 0
  (.ev (.tokenCount it) :: tr, st')

/-! ## Trace predicates -/

def isEvDone : TraceItem → Bool
  | .ev .done => true
  | _ => false

def isExec : TraceItem → Bool
  | .exec _ => true
  | _ => false

def isCheckTrue : TraceItem → Bool
  | .check true => true
  | _ => false

def isSleep : ChatTraceEv → Bool
  | .sleepEv _ => true
  | _ => false

def isReqLog : ChatTraceEv → Bool
  | .reqLog _ => true
  | _ => false

/-- Number of `done` events in a trace. -/
def doneCount (t : List TraceItem) : Nat := t.countP isEvDone

/-- No abort check in the trace observed `true`. -/
def noCheckTrue (t : List TraceItem) : Bool := t.all fun it => !isCheckTrue it

/-- After the first check that observed cancellation, the remainder of the
trace is exactly the final notice and the final `done`: in particular no
event follows `done`, and no tool is dispatched after cancellation is
observed. -/
def cancelTailOk : List TraceItem → Bool
  | [] => true
  | .check true :: rest => rest == [.ev (.content cancelNotice), .ev .done]
  | _ :: rest => cancelTailOk rest

/-- No tool dispatch after any check that observed cancellation. -/
def noExecAfterCheckTrue : List TraceItem → Bool
  | [] => true
  | .check true :: rest => rest.all fun it => !isExec it
  | _ :: rest => noExecAfterCheckTrue rest

/-- The trace ends with a `done` event. -/
def endsWithDone (t : List TraceItem) : Bool :=
  match t.getLast? with
  | some (.ev .done) => true
  | _ => false

/-- The sleep durations of a transport trace, in order. -/
def sleepsOf (t : List ChatTraceEv) : List ℚ :=
  t.filterMap fun it =>
    match it with
    | .sleepEv d => some d
    | _ => none

/-- Number of outgoing-request log events in a transport trace. -/
def reqLogCount (t : List ChatTraceEv) : Nat := t.countP isReqLog

/-- Number of failure log events in a transport trace. -/
def errLogCount (t : List ChatTraceEv) : Nat :=
  t.countP fun it =>
    match it with
    | .errLog _ _ => true
    | _ => false

/-- The logging discipline of the transport retry loop after the single
request log: failed attempts each log the failure first, then either sleep
and retry or give up; a successful attempt logs only the response. -/
inductive RetryTraceShape : List ChatTraceEv → Prop where
  | success : RetryTraceShape [.respLog]
  | giveup (c m : String) : RetryTraceShape [.errLog c m]
  | retry (c m : String) (d : ℚ) (rest : List ChatTraceEv) :
      RetryTraceShape rest → RetryTraceShape (.errLog c m :: .sleepEv d :: rest)

/-- State `new` extends `old` by appending only (both histories). -/
def extendsState (old new : AgentState) : Prop :=
  (∃ ms, new.messages = old.messages ++ ms) ∧
  (∃ hs, new.history = old.history ++ hs)

/-! ## Heap model for `getChatHistory`

`getChatHistory` returns `[...this.chatHistory]` — a freshly allocated
array holding a copy of the entries.  Aliasing is invisible in a pure
embedding, so array identity is made explicit: a heap of chat-entry
arrays addressed by index, where the agent's own history lives in one
cell and `getChatHistory` allocates a new cell. -/

structure HistHeap where
  cells : List (List ChatEntry)

def heapRead (h : HistHeap) (r : Nat) : List ChatEntry := (h.cells.get? r).getD []

def heapWrite (h : HistHeap) (r : Nat) (v : List ChatEntry) : HistHeap :=
  ⟨h.cells.set r v⟩

/-- Method `GrokAgent.getChatHistory`: allocate a fresh array containing a copy of
the agent's chat history and return a reference to it. -/
def getChatHistory (h : HistHeap) (agentRef : Nat) : Nat × HistHeap :=
  (h.cells.length, ⟨h.cells ++ [heapRead h agentRef]⟩)

/-! ## Concrete instances for witnesses and counterexamples -/

/-- A concrete stand-in for `JSON.parse`: accepts the empty-object text,
rejects everything else (in particular the text "not json", which the real
`JSON.parse` also rejects). -/
def parse0 : String → Except String JsonVal :=
  fun s => if s = "\x7b\x7d" then .ok ⟨s⟩ else .error ("Unexpected token: " ++ s)

def collabOk : JsonVal → Except String ToolResult :=
  fun _ => .ok ⟨true, some "ok", none⟩

def env0 : ExecEnv :=
  { parse := parse0
    hasMorph := false
    viewFile := collabOk
    writeFile := collabOk
    strReplace := collabOk
    morphEdit := collabOk
    bashExec := collabOk
    globTool := collabOk
    grepTool := collabOk
    createTodo := collabOk
    updateTodo := collabOk
    searchTool := collabOk
    mcpCall := fun _ _ => .ok ⟨false, [.text "ok"]⟩ }

/-- A collaborator environment whose bash tool fails (rejected promise). -/
def envBashFails : ExecEnv :=
  { env0 with bashExec := fun _ => .error "spawn failed" }

/-- A collaborator environment whose MCP manager fails. -/
def envMcpFails : ExecEnv :=
  { env0 with mcpCall := fun _ _ => .error "server down" }

def err429 : RawError := ⟨none, none, "rate limited", some 429, none, none⟩

def okSdkResponse : SdkResponse := ⟨"hi", [], some "stop"⟩

/-- A backend that fails twice with a retryable error, then succeeds. -/
def backendFailTwice : Nat → Except RawError SdkResponse :=
  fun i => if i < 2 then .error err429 else .ok okSdkResponse

def jitter0 : Nat → ℚ := fun _ => 0

/-- A backend that always fails with the retryable 429 error. -/
def backendFailAlways : Nat → Except RawError SdkResponse := fun _ => .error err429

/-- A streaming backend that always fails with the retryable 429 error. -/
def backendSFailAlways : Nat → SdkStreamAttempt := fun _ => ⟨[], .error err429⟩

def stringify0 : JsonVal → String := fun v => v.val

/-- An initial session state: the system prompt only. -/
def st0 : AgentState := ⟨[⟨"system", .str "sys"⟩], []⟩

/-- A tool call whose raw argument text is not valid JSON. -/
def badCall : ToolCall := ⟨"call_1", "bash", "not json"⟩

/-- An oracle whose first reply carries the malformed tool call. -/
def oracleBad : Nat → Except ApiErrorInfo GrokMessageOut :=
  fun _ => .ok ⟨some "running", some [badCall]⟩

def callA : ToolCall := ⟨"call_a", "bash", "\x7b\x7d"⟩
def callB : ToolCall := ⟨"call_b", "view_file", "\x7b\x7d"⟩

/-- An oracle replying with two tool calls, then with plain text. -/
def oracleAB : Nat → Except ApiErrorInfo GrokMessageOut :=
  fun i => if i = 0 then .ok ⟨some "working", some [callA, callB]⟩
           else .ok ⟨some "all done", none⟩

/-- An oracle that always requests a tool call. -/
def oracleAlwaysTool : Nat → Except ApiErrorInfo GrokMessageOut :=
  fun _ => .ok ⟨none, some [callA]⟩

def info500 : ApiErrorInfo := ⟨some 500, "server", "boom", true⟩

/-- An oracle whose chat call always raises the structured 500 error. -/
def oracleApiErr : Nat → Except ApiErrorInfo GrokMessageOut :=
  fun _ => .error info500

def countTokens0 : List Msg → Nat := fun ms => ms.length

/-- A one-cell heap: the agent's chat history lives at reference 0. -/
def heap0 : HistHeap := ⟨[[⟨.user, "hello", none, none, none, false⟩]]⟩

/-- A streaming oracle: two text deltas, then one whole tool call. -/
def roundStream0 : Nat → RoundStream :=
  fun i =>
    if i = 0 then
      ⟨[⟨some ⟨some "he", none⟩⟩, ⟨some ⟨some "llo", none⟩⟩,
        ⟨some ⟨none, some [⟨"call_a", "bash", some "\x7b\x7d"⟩]⟩⟩], .ok ()⟩
    else ⟨[⟨some ⟨some "done", none⟩⟩], .ok ()⟩

/-! ## Theorems -/

/-- C7: for a raw error classified by its HTTP status (no abort/timeout or
transport-connection indicator fires first), a status of 429 or in
[500,600) yields `retryable = true` with code `rate_limit` or `server`,
and a status in {400, 401, 403, 404} yields `retryable = false` with code
`bad_request`, `auth`, or `not_found`. -/
theorem classifyError_status_classes (e : RawError)
    (ht : isTimeoutErr e = false) (hn : isNetworkErr e = false) :
    ((statusOf e = some 429 ∨ (∃ s, statusOf e = some s ∧ 500 ≤ s ∧ s < 600)) →
      (classifyError e).retryable = true ∧
      ((classifyError e).code = "rate_limit" ∨ (classifyError e).code = "server")) ∧
    (∀ s, statusOf e = some s → (s = 400 ∨ s = 401 ∨ s = 403 ∨ s = 404) →
      (classifyError e).retryable = false ∧
      ((classifyError e).code = "bad_request" ∨ (classifyError e).code = "auth" ∨
       (classifyError e).code = "not_found")) := by
  constructor
  · rintro (h | ⟨s, hs, h5, _⟩)
    · simp [classifyError, ht, hn, h, isServerStatus]
    · have h400 : s ≠ 400 := by omega
      have h401 : s ≠ 401 := by omega
      have h403 : s ≠ 403 := by omega
      have h404 : s ≠ 404 := by omega
      have h429 : s ≠ 429 := by omega
      simp [classifyError, ht, hn, hs, isServerStatus, h400, h401, h403, h404, h429, h5]
  · rintro s hs (rfl | rfl | rfl | rfl) <;>
      simp [classifyError, ht, hn, hs, isServerStatus]

/-- C2: a transport operation (`chat` or `chatStream`) against a backend
that always fails with a retryable error performs exactly
`MAX_RETRIES + 1 = 4` attempts, sleeps `BASE_DELAY_MS * 2 ^ attempt`
plus the attempt's jitter (in [0, 500)) between attempts, and raises the
structured error built from the final attempt's classification. -/
theorem transport_retry_exhaustion
    (backend : Nat → Except RawError SdkResponse) (backendS : Nat → SdkStreamAttempt)
    (jitter : Nat → ℚ) (stringify : JsonVal → String) (nowId : String) (mc mcS : Nat)
    (e es : Nat → RawError)
    (hb : ∀ i, backend i = .error (e i))
    (hr : ∀ i, (classifyError (e i)).retryable = true)
    (hbs : ∀ i, (backendS i).outcome = .error (es i))
    (hrs : ∀ i, (classifyError (es i)).retryable = true)
    (hj : ∀ i, 0 ≤ jitter i ∧ jitter i < 500) :
    (chat backend jitter stringify nowId mc).attempts = MAX_RETRIES + 1 ∧
    (chat backend jitter stringify nowId mc).result =
      .error (classifyError (e MAX_RETRIES)) ∧
    sleepsOf (chat backend jitter stringify nowId mc).trace =
      [BASE_DELAY_MS * 2 ^ 0 + jitter 0, BASE_DELAY_MS * 2 ^ 1 + jitter 1,
       BASE_DELAY_MS * 2 ^ 2 + jitter 2] ∧
    (∀ a, a < MAX_RETRIES →
      BASE_DELAY_MS * 2 ^ a ≤ BASE_DELAY_MS * 2 ^ a + jitter a ∧
      BASE_DELAY_MS * 2 ^ a + jitter a < BASE_DELAY_MS * 2 ^ a + 500) ∧
    (chatStream backendS jitter stringify mcS).attempts = MAX_RETRIES + 1 ∧
    (chatStream backendS jitter stringify mcS).result =
      .error (classifyError (es MAX_RETRIES)) ∧
    sleepsOf (chatStream backendS jitter stringify mcS).trace =
      [BASE_DELAY_MS * 2 ^ 0 + jitter 0, BASE_DELAY_MS * 2 ^ 1 + jitter 1,
       BASE_DELAY_MS * 2 ^ 2 + jitter 2] := by
  refine ⟨?_, ?_, ?_, ?_, ?_, ?_, ?_⟩
  · simp [chat, chatAux, MAX_RETRIES, hb, hr]
  · simp [chat, chatAux, MAX_RETRIES, hb, hr]
  · simp [chat, chatAux, MAX_RETRIES, hb, hr, sleepsOf]
  · intro a _
    have := hj a
    constructor <;> linarith [this.1, this.2]
  · simp [chatStream, chatStreamAux, MAX_RETRIES, hbs, hrs]
  · simp [chatStream, chatStreamAux, MAX_RETRIES, hbs, hrs]
  · simp [chatStream, chatStreamAux, MAX_RETRIES, hbs, hrs, sleepsOf]

/-- Witness for `classifyError_status_classes` at the concrete 429 error. -/
theorem classifyError_status_classes_witness :
    isTimeoutErr err429 = false ∧ isNetworkErr err429 = false ∧
    (classifyError err429).retryable = true ∧
    ((classifyError err429).code = "rate_limit" ∨ (classifyError err429).code = "server") := by
  have h := (classifyError_status_classes err429 rfl rfl).1 (Or.inl rfl)
  exact ⟨rfl, rfl, h.1, h.2⟩

/-- Witness for `transport_retry_exhaustion` at the always-failing backends. -/
theorem transport_retry_exhaustion_witness :
    (chat backendFailAlways jitter0 stringify0 "t" 2).attempts = MAX_RETRIES + 1 ∧
    (chatStream backendSFailAlways jitter0 stringify0 3).attempts = MAX_RETRIES + 1 := by
  have h := transport_retry_exhaustion backendFailAlways backendSFailAlways jitter0 stringify0
    "t" 2 3 (fun _ => err429) (fun _ => err429)
    (fun _ => rfl) (fun _ => rfl) (fun _ => rfl) (fun _ => rfl)
    (fun _ => by constructor <;> norm_num [jitter0])
  exact ⟨h.1, h.2.2.2.2.1⟩

/-- C9 counterexample: with a backend that fails twice (retryably) and
then succeeds, `chat` performs three attempts but the outgoing call is
logged exactly once — before the first attempt, not before every attempt
as the claim states. -/
theorem chat_request_logged_once_cex :
    (chat backendFailTwice jitter0 stringify0 "t" 5).attempts = 3 ∧
    reqLogCount (chat backendFailTwice jitter0 stringify0 "t" 5).trace = 1 := by
  exact ⟨rfl, rfl⟩

lemma retryTraceShape_reqLogCount {t : List ChatTraceEv} (h : RetryTraceShape t) :
    reqLogCount t = 0 := by
  induction h with
  | success => rfl
  | giveup c m => rfl
  | retry c m d rest _ ih => simp [reqLogCount, isReqLog] at ih ⊢; exact ih

lemma chatAux_trace_shape (backend : Nat → Except RawError SdkResponse)
    (jitter : Nat → ℚ) (stringify : JsonVal → String) (nowId : String) :
    ∀ r a lastE, a + r = MAX_RETRIES + 1 → 0 < r →
      RetryTraceShape (chatAux backend jitter stringify nowId r a lastE).trace := by
  intro r
  induction r with
  | zero => intro a lastE _ h; omega
  | succ n ih =>
    intro a lastE hsum _
    simp only [chatAux]
    cases backend a with
    | ok resp => exact .success
    | error e =>
      dsimp only
      by_cases hc : (classifyError e).retryable = true ∧ a < MAX_RETRIES
      · rw [if_pos hc]
        exact .retry _ _ _ _ (ih (a + 1) e (by omega) (by omega))
      · rw [if_neg hc]
        exact .giveup _ _

lemma chatStreamAux_trace_shape (backendS : Nat → SdkStreamAttempt)
    (jitter : Nat → ℚ) (stringify : JsonVal → String) :
    ∀ r a lastE, a + r = MAX_RETRIES + 1 → 0 < r →
      RetryTraceShape (chatStreamAux backendS jitter stringify r a lastE).trace := by
  intro r
  induction r with
  | zero => intro a lastE _ h; omega
  | succ n ih =>
    intro a lastE hsum _
    simp only [chatStreamAux]
    cases (backendS a).outcome with
    | ok u => exact .success
    | error e =>
      dsimp only
      by_cases hc : (classifyError e).retryable = true ∧ a < MAX_RETRIES
      · rw [if_pos hc]
        exact .retry _ _ _ _ (ih (a + 1) e (by omega) (by omega))
      · rw [if_neg hc]
        exact .giveup _ _

/-- C9 amended: a transport call (`chat` or `chatStream`) logs the
outgoing call (with the message count) exactly once, before the first
attempt — not before every retry attempt; after it, the trace follows the
retry discipline in which every failed attempt logs its failure before
the retry-or-raise decision (the failure log precedes the backoff sleep
of a retry, or is the last trace event when the error is raised). -/
theorem transport_logging_discipline
    (backend : Nat → Except RawError SdkResponse) (backendS : Nat → SdkStreamAttempt)
    (jitter : Nat → ℚ) (stringify : JsonVal → String) (nowId : String) (mc mcS : Nat) :
    (∃ t, (chat backend jitter stringify nowId mc).trace = .reqLog mc :: t ∧
      RetryTraceShape t ∧ reqLogCount t = 0) ∧
    (∃ t, (chatStream backendS jitter stringify mcS).trace = .reqLog mcS :: t ∧
      RetryTraceShape t ∧ reqLogCount t = 0) := by
  constructor
  · refine ⟨(chatAux backend jitter stringify nowId (MAX_RETRIES + 1) 0 defaultRawError).trace,
      rfl, ?_, ?_⟩
    · exact chatAux_trace_shape backend jitter stringify nowId _ 0 _ rfl (by omega)
    · exact retryTraceShape_reqLogCount
        (chatAux_trace_shape backend jitter stringify nowId _ 0 _ rfl (by omega))
  · refine ⟨(chatStreamAux backendS jitter stringify (MAX_RETRIES + 1) 0 defaultRawError).trace,
      rfl, ?_, ?_⟩
    · exact chatStreamAux_trace_shape backendS jitter stringify _ 0 _ rfl (by omega)
    · exact retryTraceShape_reqLogCount
        (chatStreamAux_trace_shape backendS jitter stringify _ 0 _ rfl (by omega))

lemma parseToolCallParts_ok (parse : String → Except String JsonVal) :
    ∀ tcs : List ToolCall, (∀ tc ∈ tcs, ∃ v, parse tc.arguments = .ok v) →
      ∃ ps, parseToolCallParts parse tcs = .ok ps := by
  intro tcs
  induction tcs with
  | nil => intro _; exact ⟨[], rfl⟩
  | cons tc rest ih =>
    intro h
    obtain ⟨v, hv⟩ := h tc (by simp)
    obtain ⟨ps, hps⟩ := ih fun x hx => h x (by simp [hx])
    refine ⟨.toolCallP tc.id tc.name v :: ps, ?_⟩
    simp [parseToolCallParts, hv, hps]

lemma buildAssistantMessage_ok (parse : String → Except String JsonVal)
    (m : GrokMessageOut)
    (h : ∀ tc ∈ m.tool_calls.getD [], ∃ v, parse tc.arguments = .ok v) :
    ∃ am, buildAssistantMessage parse m = .ok am := by
  unfold buildAssistantMessage
  by_cases hc : hasToolCalls m = true
  · obtain ⟨ps, hps⟩ := parseToolCallParts_ok parse _ h
    rw [hc]
    simp only [if_true, hps]
    exact ⟨_, rfl⟩
  · rw [Bool.not_eq_true] at hc
    rw [hc]
    exact ⟨_, rfl⟩

lemma pumLoop_error_api (env : ExecEnv)
    (oracle : Nat → Except ApiErrorInfo GrokMessageOut)
    (hp : ∀ i rm, oracle i = .ok rm →
      ∀ tc ∈ rm.tool_calls.getD [], ∃ v, env.parse tc.arguments = .ok v) :
    ∀ fuel calls st last err,
      (pumLoop env oracle fuel calls st last).result = .error err →
      ∃ info, err = .api info := by
  intro fuel
  induction fuel with
  | zero => intro calls st last err h; simp [pumLoop] at h
  | succ n ih =>
    intro calls st last err h
    simp only [pumLoop] at h
    cases ho : oracle calls with
    | error info =>
      rw [ho] at h
      simp at h
      exact ⟨info, h.symm⟩
    | ok rm =>
      rw [ho] at h
      dsimp only at h
      obtain ⟨am, ham⟩ := buildAssistantMessage_ok env.parse rm (hp calls rm ho)
      rw [ham] at h
      dsimp only at h
      by_cases htc : hasToolCalls rm = true
      · rw [htc] at h
        simp only [if_true] at h
        exact ih _ _ _ _ h
      · rw [Bool.not_eq_true] at htc
        rw [htc] at h
        simp at h

/-- C3 counterexample: the buffered loop can let a raw JavaScript error
escape.  With a model reply carrying a tool call whose `arguments` text is
not valid JSON (here "not json"), `processUserMessage` propagates the raw
`JSON.parse` SyntaxError, not a structured `GrokApiError`; and such a
reply is producible by the real transport, whose `convertToolCalls`
passes a string-typed SDK `input` through verbatim. -/
theorem processUserMessage_raw_error_cex :
    (processUserMessage env0 oracleBad 400 st0 "hi").result =
      .error (.js "Unexpected token: not json") ∧
    (chat (fun _ => .ok ⟨"running",
        [⟨some "call_1", none, some "bash", none, some (.str "not json")⟩], some "stop"⟩)
        jitter0 stringify0 "t" 1).result =
      .ok ⟨[⟨⟨"assistant", some "running", some [badCall]⟩, "stop"⟩]⟩ := by
  exact ⟨rfl, rfl⟩

/-- C3 amended: the transport operations raise only the structured
`GrokApiError` (their whole attempt body is wrapped, so the `Except`
error type of `chat`/`chatStream` is `ApiErrorInfo` by construction), and
the buffered loop raises only the structured error provided every tool
call in the model's replies carries argument text accepted by
`JSON.parse`; with malformed argument text a raw parse error escapes
(see the counterexample). -/
theorem processUserMessage_raises_only_api (env : ExecEnv)
    (oracle : Nat → Except ApiErrorInfo GrokMessageOut)
    (maxToolRounds : Nat) (st : AgentState) (message : String)
    (hp : ∀ i rm, oracle i = .ok rm →
      ∀ tc ∈ rm.tool_calls.getD [], ∃ v, env.parse tc.arguments = .ok v) :
    ∀ err, (processUserMessage env oracle maxToolRounds st message).result = .error err →
      ∃ info, err = .api info := by
  intro err h
  unfold processUserMessage at h
  dsimp only at h
  split at h <;> exact pumLoop_error_api env oracle hp _ _ _ _ _ h

/-- Witness for `processUserMessage_raises_only_api`: a run whose only
failure is the structured 500 error. -/
theorem processUserMessage_raises_only_api_witness :
    (processUserMessage env0 oracleApiErr 400 st0 "hi").result = .error (.api info500) ∧
    ∃ info, JsError.api info500 = .api info := by
  refine ⟨rfl, ?_⟩
  exact processUserMessage_raises_only_api env0 oracleApiErr 400 st0 "hi"
    (fun i rm h => by simp [oracleApiErr] at h) (.api info500) rfl

lemma runToolCalls_eq (env : ExecEnv) :
    ∀ (tcs : List ToolCall) (st : AgentState),
      runToolCalls env tcs st =
        ({ messages := st.messages ++
             tcs.map fun tc => buildToolResultMessage tc (executeTool env tc)
           history := st.history ++
             tcs.map fun tc => toolResultEntry tc (executeTool env tc) }, tcs) := by
  intro tcs
  induction tcs with
  | nil => intro st; simp [runToolCalls]
  | cons tc rest ih =>
    intro st
    simp [runToolCalls, ih]

/-- C1: in buffered mode, when the model's first reply carries the two
tool calls `[A, B]` (and the next reply carries none), the dispatcher
runs `A` then `B` in that order, and the resulting message history is the
old history extended by the user message, then the assistant message
carrying both call parts, then the tool-result message for `A`, then the
tool-result message for `B`, then the final assistant message. -/
theorem processUserMessage_two_call_order (env : ExecEnv)
    (oracle : Nat → Except ApiErrorInfo GrokMessageOut)
    (maxToolRounds : Nat) (st : AgentState) (message : String)
    (c0 c1 : Option String) (A B : ToolCall)
    (h0 : oracle 0 = .ok ⟨c0, some [A, B]⟩)
    (h1 : oracle 1 = .ok ⟨c1, none⟩)
    (hm : 2 ≤ maxToolRounds)
    (hA : ∃ v, env.parse A.arguments = .ok v)
    (hB : ∃ v, env.parse B.arguments = .ok v) :
    ∃ am0 am1,
      buildAssistantMessage env.parse ⟨c0, some [A, B]⟩ = .ok am0 ∧
      buildAssistantMessage env.parse ⟨c1, none⟩ = .ok am1 ∧
      (processUserMessage env oracle maxToolRounds st message).state.messages =
        st.messages ++ [⟨"user", .str message⟩, am0,
          buildToolResultMessage A (executeTool env A),
          buildToolResultMessage B (executeTool env B), am1] ∧
      (processUserMessage env oracle maxToolRounds st message).execs = [A, B] := by
  obtain ⟨k, rfl⟩ : ∃ k, maxToolRounds = k + 2 := ⟨maxToolRounds - 2, by omega⟩
  obtain ⟨vA, hvA⟩ := hA
  obtain ⟨vB, hvB⟩ := hB
  have ham0 : buildAssistantMessage env.parse ⟨c0, some [A, B]⟩ =
      .ok ⟨"assistant",
        .parts ((match c0 with
                 | some s => if s = "" then [] else [ContentPart.text s]
                 | none => []) ++
          [.toolCallP A.id A.name vA, .toolCallP B.id B.name vB])⟩ := by
    simp [buildAssistantMessage, hasToolCalls, parseToolCallParts, hvA, hvB]
  have ham1 : buildAssistantMessage env.parse ⟨c1, none⟩ =
      .ok ⟨"assistant", .str (jsOrEmpty c1)⟩ := by
    simp [buildAssistantMessage, hasToolCalls]
  refine ⟨_, _, ham0, ham1, ?_, ?_⟩ <;>
    simp [processUserMessage, pumLoop, h0, h1, ham0, ham1, hasToolCalls,
      runToolCalls_eq, assistantEntry]

/-- C5: with the round limit configured to 1 and a model whose first reply
requests tool calls, the buffered loop performs exactly one round and one
chat call, executes that round's tools, appends exactly one terminal
informational entry after the round's entries, returns the last response
obtained, and raises nothing. -/
theorem processUserMessage_round_limit_one (env : ExecEnv)
    (oracle : Nat → Except ApiErrorInfo GrokMessageOut)
    (st : AgentState) (message : String) (rm0 : GrokMessageOut)
    (h0 : oracle 0 = .ok rm0)
    (hc : hasToolCalls rm0 = true)
    (hp : ∀ tc ∈ rm0.tool_calls.getD [], ∃ v, env.parse tc.arguments = .ok v) :
    (processUserMessage env oracle 1 st message).result = .ok (some rm0) ∧
    (processUserMessage env oracle 1 st message).rounds = 1 ∧
    (processUserMessage env oracle 1 st message).calls = 1 ∧
    (processUserMessage env oracle 1 st message).exhausted = true ∧
    (processUserMessage env oracle 1 st message).state.history =
      st.history ++ [assistantEntry rm0] ++
        ((rm0.tool_calls.getD []).map fun tc => toolResultEntry tc (executeTool env tc)) ++
        [maxRoundsEntry] := by
  obtain ⟨am, ham⟩ := buildAssistantMessage_ok env.parse rm0 hp
  refine ⟨?_, ?_, ?_, ?_, ?_⟩ <;>
    simp [processUserMessage, pumLoop, h0, ham, hc, runToolCalls_eq]

/-- Witness for `processUserMessage_two_call_order` at concrete inputs. -/
theorem processUserMessage_two_call_order_witness :
    ∃ am0 am1,
      buildAssistantMessage env0.parse ⟨some "working", some [callA, callB]⟩ = .ok am0 ∧
      buildAssistantMessage env0.parse ⟨some "all done", none⟩ = .ok am1 ∧
      (processUserMessage env0 oracleAB 400 st0 "go").state.messages =
        st0.messages ++ [⟨"user", .str "go"⟩, am0,
          buildToolResultMessage callA (executeTool env0 callA),
          buildToolResultMessage callB (executeTool env0 callB), am1] ∧
      (processUserMessage env0 oracleAB 400 st0 "go").execs = [callA, callB] :=
  processUserMessage_two_call_order env0 oracleAB 400 st0 "go"
    (some "working") (some "all done") callA callB rfl rfl (by omega)
    ⟨⟨"\x7b\x7d"⟩, rfl⟩ ⟨⟨"\x7b\x7d"⟩, rfl⟩

/-- Witness for `processUserMessage_round_limit_one` at concrete inputs. -/
theorem processUserMessage_round_limit_one_witness :
    (processUserMessage env0 oracleAlwaysTool 1 st0 "go").result =
      .ok (some ⟨none, some [callA]⟩) ∧
    (processUserMessage env0 oracleAlwaysTool 1 st0 "go").rounds = 1 ∧
    (processUserMessage env0 oracleAlwaysTool 1 st0 "go").calls = 1 ∧
    (processUserMessage env0 oracleAlwaysTool 1 st0 "go").exhausted = true ∧
    (processUserMessage env0 oracleAlwaysTool 1 st0 "go").state.history =
      st0.history ++ [assistantEntry ⟨none, some [callA]⟩] ++
        ([callA].map fun tc => toolResultEntry tc (executeTool env0 tc)) ++
        [maxRoundsEntry] := by
  have h := processUserMessage_round_limit_one env0 oracleAlwaysTool st0 "go"
    ⟨none, some [callA]⟩ rfl rfl
    (by intro tc htc
        simp only [Option.getD, List.mem_singleton] at htc
        subst htc
        exact ⟨⟨"\x7b\x7d"⟩, rfl⟩)
  exact h

/-- C6: the tool dispatcher is total — it returns a `ToolResult` for every
`ToolCall` (never throws, by construction of the embedded catch).
Malformed argument JSON yields the parse-failure envelope; a name that is
neither built-in nor `mcp__`-prefixed yields the unknown-tool envelope; a
failing built-in collaborator and a failing MCP call are converted to
failure envelopes carrying the failure message. -/
theorem executeTool_contract (env : ExecEnv) (tc : ToolCall) :
    (∀ m, env.parse tc.arguments = .error m →
      executeTool env tc = ⟨false, none, some ("Tool execution error: " ++ m)⟩) ∧
    (tc.name ∉ builtinToolNames → jsStartsWith tc.name "mcp__" = false →
      ∀ v, env.parse tc.arguments = .ok v →
        executeTool env tc = ⟨false, none, some ("Unknown tool: " ++ tc.name)⟩) ∧
    (∀ f, builtinCollab env tc.name = some f →
      ∀ v, env.parse tc.arguments = .ok v → ∀ m, f v = .error m →
        executeTool env tc = ⟨false, none, some ("Tool execution error: " ++ m)⟩) ∧
    (jsStartsWith tc.name "mcp__" = true →
      ∀ v, env.parse tc.arguments = .ok v → ∀ m, env.mcpCall tc.name v = .error m →
      tc.name ∉ builtinToolNames →
        executeTool env tc = ⟨false, none, some ("MCP tool execution error: " ++ m)⟩) := by
  refine ⟨?_, ?_, ?_, ?_⟩
  · intro m hm
    simp [executeTool, hm]
  · intro hnb hnm v hv
    simp only [builtinToolNames, List.mem_cons, List.not_mem_nil, or_false, not_or] at hnb
    obtain ⟨n1, n2, n3, n4, n5, n6, n7, n8, n9, n10, n11⟩ := hnb
    unfold executeTool
    rw [hv]
    dsimp only
    split <;> simp_all [hnm]
  · intro f hf v hv m hm
    unfold builtinCollab at hf
    unfold executeTool
    rw [hv]
    dsimp only
    split at hf <;>
      first
      | (injection hf with hf; subst hf; simp_all [runCollab])
      | (split at hf <;>
          [(injection hf with hf; subst hf; simp_all [runCollab]); exact absurd hf (by simp)])
      | exact absurd hf (by simp)
  · intro hm' v hv m hmc hnb
    simp only [builtinToolNames, List.mem_cons, List.not_mem_nil, or_false, not_or] at hnb
    obtain ⟨n1, n2, n3, n4, n5, n6, n7, n8, n9, n10, n11⟩ := hnb
    unfold executeTool
    rw [hv]
    dsimp only
    split <;> simp_all [hm', executeMCPTool, hv, hmc]

/-- Witness for `executeTool_contract` at four concrete calls. -/
theorem executeTool_contract_witness :
    executeTool env0 ⟨"x", "bash", "oops"⟩ =
      ⟨false, none, some "Tool execution error: Unexpected token: oops"⟩ ∧
    executeTool env0 ⟨"x", "frobnicate", "\x7b\x7d"⟩ =
      ⟨false, none, some "Unknown tool: frobnicate"⟩ ∧
    executeTool envBashFails ⟨"x", "bash", "\x7b\x7d"⟩ =
      ⟨false, none, some "Tool execution error: spawn failed"⟩ ∧
    executeTool envMcpFails ⟨"x", "mcp__list", "\x7b\x7d"⟩ =
      ⟨false, none, some "MCP tool execution error: server down"⟩ := by
  refine ⟨?_, ?_, ?_, ?_⟩
  · exact (executeTool_contract env0 ⟨"x", "bash", "oops"⟩).1 "Unexpected token: oops" rfl
  · exact (executeTool_contract env0 ⟨"x", "frobnicate", "\x7b\x7d"⟩).2.1
      (by decide) rfl ⟨"\x7b\x7d"⟩ rfl
  · exact (executeTool_contract envBashFails ⟨"x", "bash", "\x7b\x7d"⟩).2.2.1
      envBashFails.bashExec rfl ⟨"\x7b\x7d"⟩ rfl "spawn failed" rfl
  · exact (executeTool_contract envMcpFails ⟨"x", "mcp__list", "\x7b\x7d"⟩).2.2.2
      rfl ⟨"\x7b\x7d"⟩ rfl "server down" rfl (by decide)

lemma extendsState_refl (st : AgentState) : extendsState st st :=
  ⟨⟨[], by simp⟩, ⟨[], by simp⟩⟩

lemma extendsState_trans {a b c : AgentState}
    (h1 : extendsState a b) (h2 : extendsState b c) : extendsState a c := by
  obtain ⟨⟨m1, hm1⟩, ⟨l1, hl1⟩⟩ := h1
  obtain ⟨⟨m2, hm2⟩, ⟨l2, hl2⟩⟩ := h2
  exact ⟨⟨m1 ++ m2, by simp [hm2, hm1]⟩, ⟨l1 ++ l2, by simp [hl2, hl1]⟩⟩

lemma extendsState_push (st : AgentState) (ms : List Msg) (hs : List ChatEntry) :
    extendsState st ⟨st.messages ++ ms, st.history ++ hs⟩ :=
  ⟨⟨ms, rfl⟩, ⟨hs, rfl⟩⟩

lemma extendsState_user (st : AgentState) (m : Msg) :
    extendsState st ⟨st.messages ++ [m], st.history⟩ :=
  ⟨⟨[m], rfl⟩, ⟨[], by simp⟩⟩

lemma extendsState_hist (st : AgentState) (e : ChatEntry) :
    extendsState st ⟨st.messages, st.history ++ [e]⟩ :=
  ⟨⟨[], by simp⟩, ⟨[e], rfl⟩⟩

lemma pumLoop_extends (env : ExecEnv)
    (oracle : Nat → Except ApiErrorInfo GrokMessageOut) :
    ∀ fuel calls st last, extendsState st (pumLoop env oracle fuel calls st last).state := by
  intro fuel
  induction fuel with
  | zero => intro calls st last; exact extendsState_refl st
  | succ n ih =>
    intro calls st last
    simp only [pumLoop]
    cases oracle calls with
    | error info => exact extendsState_refl st
    | ok rm =>
      dsimp only
      cases buildAssistantMessage env.parse rm with
      | error m => exact extendsState_refl st
      | ok am =>
        dsimp only
        by_cases htc : hasToolCalls rm = true
        · rw [htc]
          simp only [if_true]
          refine extendsState_trans (extendsState_push st [am] [assistantEntry rm]) ?_
          refine extendsState_trans ?_ (ih _ _ _)
          rw [runToolCalls_eq]
          exact extendsState_push _ _ _
        · rw [Bool.not_eq_true] at htc
          rw [htc]
          simp only [Bool.false_eq_true, if_false]
          exact extendsState_push st [am] [assistantEntry rm]

lemma catchPath_extends (cancelAt : Nat) (st : AgentState) (e : JsError) (k : Nat) :
    extendsState st (catchPath cancelAt st e k).2 := by
  unfold catchPath
  split
  · exact extendsState_refl st
  · exact ⟨⟨[], by simp⟩, ⟨[⟨.assistant, streamErrMsg e, none, none, none, false⟩], rfl⟩⟩

lemma runToolsStream_extends (env : ExecEnv) (cancelAt : Nat) :
    ∀ tcs st k, extendsState st (tpState (runToolsStream env cancelAt tcs st k)) := by
  intro tcs
  induction tcs with
  | nil => intro st k; exact extendsState_refl st
  | cons tc rest ih =>
    intro st k
    simp only [runToolsStream]
    split
    · exact extendsState_refl st
    · have h := ih ⟨st.messages ++ [buildToolResultMessage tc (executeTool env tc)],
        st.history ++ [toolResultEntry tc (executeTool env tc)]⟩ (k + 1)
      cases hrt : runToolsStream env cancelAt rest
          ⟨st.messages ++ [buildToolResultMessage tc (executeTool env tc)],
           st.history ++ [toolResultEntry tc (executeTool env tc)]⟩ (k + 1) with
      | cancelledT tr st2 k2 =>
        rw [hrt] at h
        simp only [tpState] at h ⊢
        exact extendsState_trans (extendsState_push st _ _) h
      | completedT tr st2 k2 =>
        rw [hrt] at h
        simp only [tpState] at h ⊢
        exact extendsState_trans (extendsState_push st _ _) h

lemma streamLoop_extends (env : ExecEnv) (oracle : Nat → RoundStream)
    (ct : List Msg → Nat) (cancelAt : Nat) :
    ∀ fuel roundIdx k st it tot,
      extendsState st (streamLoop env oracle ct cancelAt fuel roundIdx k st it tot).2 := by
  intro fuel
  induction fuel with
  | zero => intro roundIdx k st it tot; exact extendsState_refl st
  | succ n ih =>
    intro roundIdx k st it tot
    simp only [streamLoop]
    split
    · exact extendsState_refl st
    · cases hcc : consumeChunks cancelAt it (oracle roundIdx).chunks (k + 1) "" [] tot with
      | cancelled tr k' => exact extendsState_refl st
      | drained tr acc atc tot' k' =>
        dsimp only
        cases (oracle roundIdx).outcome with
        | error info => exact catchPath_extends cancelAt st (.api info) k'
        | ok u =>
          dsimp only
          cases buildAssistantMessage env.parse
              { content := if acc = "" then none else some acc
                tool_calls := if atc.length > 0 then some atc else none } with
          | error m => exact catchPath_extends cancelAt st (.js m) k'
          | ok am =>
            dsimp only
            by_cases ha : atc.length > 0
            · simp only [if_pos ha]
              refine extendsState_trans
                (extendsState_push st [am] [streamAssistantEntry acc atc]) ?_
              have hrs := runToolsStream_extends env cancelAt atc
                ⟨st.messages ++ [am], st.history ++ [streamAssistantEntry acc atc]⟩ k'
              cases hrt : runToolsStream env cancelAt atc
                  ⟨st.messages ++ [am], st.history ++ [streamAssistantEntry acc atc]⟩ k' with
              | cancelledT tr2 st2 k2 =>
                rw [hrt] at hrs
                simpa [tpState] using hrs
              | completedT tr2 st2 k2 =>
                rw [hrt] at hrs
                simp only [tpState] at hrs
                exact extendsState_trans hrs (ih _ _ st2 _ _)
            · simp only [if_neg ha]
              exact extendsState_push st [am] [streamAssistantEntry acc atc]

/-- C8: both entry points extend the session state append-only — the prior
message history is a prefix of the resulting message history, and likewise
for the chat log, on every input (including cancelled, erroring, and
round-limit-exhausted runs).  Every appended message is a fully
materialized value: the streaming path appends the assistant message only
after its round's stream has been fully drained. -/
theorem history_append_only (env : ExecEnv)
    (oracle : Nat → Except ApiErrorInfo GrokMessageOut)
    (oracleS : Nat → RoundStream) (ct : List Msg → Nat)
    (cancelAt maxToolRounds : Nat) (st stS : AgentState) (message messageS : String) :
    extendsState st (processUserMessage env oracle maxToolRounds st message).state ∧
    extendsState stS
      (processUserMessageStream env oracleS ct cancelAt maxToolRounds stS messageS).2 := by
  constructor
  · unfold processUserMessage
    dsimp only
    split
    · refine extendsState_trans (extendsState_user st ⟨"user", .str message⟩) ?_
      refine extendsState_trans
        (pumLoop_extends env oracle maxToolRounds 0
          ⟨st.messages ++ [⟨"user", .str message⟩], st.history⟩ none) ?_
      exact extendsState_hist _ maxRoundsEntry
    · refine extendsState_trans (extendsState_user st ⟨"user", .str message⟩) ?_
      exact pumLoop_extends env oracle maxToolRounds 0
        ⟨st.messages ++ [⟨"user", .str message⟩], st.history⟩ none
  · unfold processUserMessageStream
    dsimp only
    refine extendsState_trans
      (extendsState_push stS [⟨"user", .str messageS⟩] [⟨.user, messageS, none, none, none, false⟩]) ?_
    exact streamLoop_extends env oracleS ct cancelAt maxToolRounds 0 0 _ _ 0

lemma cancelTailOk_cons_check_false (t : List TraceItem) :
    cancelTailOk (.check false :: t) = cancelTailOk t := rfl

lemma cancelTailOk_cons_ev (e : SEvent) (t : List TraceItem) :
    cancelTailOk (.ev e :: t) = cancelTailOk t := rfl

lemma cancelTailOk_cons_exec (tc : ToolCall) (t : List TraceItem) :
    cancelTailOk (.exec tc :: t) = cancelTailOk t := rfl

lemma cancelTailOk_append_of_clean :
    ∀ {a b : List TraceItem}, noCheckTrue a = true →
      cancelTailOk (a ++ b) = cancelTailOk b := by
  intro a
  induction a with
  | nil => intro b _; rfl
  | cons hd tl ih =>
    intro b h
    simp only [noCheckTrue, List.all_cons, Bool.and_eq_true, Bool.not_eq_eq_eq_not,
      Bool.not_true] at h
    obtain ⟨h1, h2⟩ := h
    cases hd with
    | ev e => rw [List.cons_append, cancelTailOk_cons_ev]; exact ih h2
    | exec tc => rw [List.cons_append, cancelTailOk_cons_exec]; exact ih h2
    | check b' =>
      cases b' with
      | false => rw [List.cons_append, cancelTailOk_cons_check_false]; exact ih h2
      | true => simp [isCheckTrue] at h1

lemma doneCount_append (a b : List TraceItem) :
    doneCount (a ++ b) = doneCount a + doneCount b := List.countP_append _ _ _

lemma doneCount_cons (x : TraceItem) (t : List TraceItem) :
    doneCount (x :: t) = doneCount t + (if isEvDone x then 1 else 0) :=
  List.countP_cons _ _ _

lemma endsWithDone_append_right {a b : List TraceItem}
    (h : endsWithDone b = true) : endsWithDone (a ++ b) = true := by
  have hb : b ≠ [] := by
    intro he
    subst he
    simp [endsWithDone] at h
  unfold endsWithDone at h ⊢
  rw [List.getLast?_append_of_ne_nil a hb]
  exact h

lemma cancelTail_facts :
    cancelTailOk cancelTail = true ∧ doneCount cancelTail = 1 ∧
    endsWithDone cancelTail = true ∧ noExecAfterCheckTrue cancelTail = true := by
  refine ⟨rfl, rfl, rfl, rfl⟩

lemma cancelTailOk_implies_noExec :
    ∀ {t : List TraceItem}, cancelTailOk t = true → noExecAfterCheckTrue t = true := by
  intro t
  induction t with
  | nil => intro _; rfl
  | cons hd tl ih =>
    intro h
    cases hd with
    | ev e => exact ih h
    | exec tc => exact ih h
    | check b' =>
      cases b' with
      | false => exact ih h
      | true =>
        simp only [cancelTailOk, beq_iff_eq] at h
        subst h
        rfl

lemma consPrepend_cancelled {pre : List TraceItem} {c : ConsumeOut}
    {tr : List TraceItem} {k : Nat}
    (h : consPrepend pre c = .cancelled tr k) :
    ∃ tr0, c = .cancelled tr0 k ∧ tr = pre ++ tr0 := by
  cases c with
  | cancelled tr0 k0 =>
    simp only [consPrepend, ConsumeOut.cancelled.injEq] at h
    exact ⟨tr0, by simp [h.1.symm, h.2], h.1.symm⟩
  | drained tr0 a b c' k0 => simp [consPrepend] at h

lemma consPrepend_drained {pre : List TraceItem} {c : ConsumeOut}
    {tr : List TraceItem} {acc : String} {atc : List ToolCall} {tot k : Nat}
    (h : consPrepend pre c = .drained tr acc atc tot k) :
    ∃ tr0, c = .drained tr0 acc atc tot k ∧ tr = pre ++ tr0 := by
  cases c with
  | cancelled tr0 k0 => simp [consPrepend] at h
  | drained tr0 a b c' k0 =>
    simp only [consPrepend, ConsumeOut.drained.injEq] at h
    obtain ⟨h1, h2, h3, h4, h5⟩ := h
    exact ⟨tr0, by rw [h2, h3, h4, h5], h1.symm⟩

lemma consumeChunks_drained_clean (cancelAt it : Nat) :
    ∀ (chunks : List StreamChunk) (k : Nat) (acc : String) (atc : List ToolCall)
      (tot : Nat) {tr acc' atc' tot' k'},
      consumeChunks cancelAt it chunks k acc atc tot = .drained tr acc' atc' tot' k' →
      noCheckTrue tr = true ∧ doneCount tr = 0 := by
  intro chunks
  induction chunks with
  | nil =>
    intro k acc atc tot tr acc' atc' tot' k' h
    simp only [consumeChunks, ConsumeOut.drained.injEq] at h
    rw [← h.1]
    exact ⟨rfl, rfl⟩
  | cons ch rest ih =>
    intro k acc atc tot tr acc' atc' tot' k' h
    simp only [consumeChunks] at h
    split at h
    · simp at h
    · cases hd : ch.delta with
      | none =>
        rw [hd] at h
        dsimp only at h
        obtain ⟨tr0, h0, rfl⟩ := consPrepend_drained h
        obtain ⟨c1, c2⟩ := ih _ _ _ _ h0
        constructor
        · simpa [noCheckTrue, isCheckTrue] using c1
        · simpa [doneCount, isEvDone, List.countP_append, List.countP_cons] using c2
      | some d =>
        rw [hd] at h
        dsimp only at h
        cases hc : d.content with
        | none =>
          rw [hc] at h
          dsimp only at h
          obtain ⟨tr0, h0, rfl⟩ := consPrepend_drained h
          obtain ⟨c1, c2⟩ := ih _ _ _ _ h0
          constructor
          · simpa [noCheckTrue, isCheckTrue] using c1
          · simpa [doneCount, isEvDone, List.countP_append, List.countP_cons] using c2
        | some str =>
          rw [hc] at h
          dsimp only at h
          by_cases hs : str = ""
          · simp only [if_pos hs] at h
            obtain ⟨tr0, h0, rfl⟩ := consPrepend_drained h
            obtain ⟨c1, c2⟩ := ih _ _ _ _ h0
            constructor
            · simpa [noCheckTrue, isCheckTrue] using c1
            · simpa [doneCount, isEvDone, List.countP_append, List.countP_cons] using c2
          · simp only [if_neg hs] at h
            obtain ⟨tr0, h0, rfl⟩ := consPrepend_drained h
            obtain ⟨c1, c2⟩ := ih _ _ _ _ h0
            constructor
            · simpa [noCheckTrue, isCheckTrue] using c1
            · simpa [doneCount, isEvDone, List.countP_append, List.countP_cons] using c2

lemma consumeChunks_cancelled_shape (cancelAt it : Nat) :
    ∀ (chunks : List StreamChunk) (k : Nat) (acc : String) (atc : List ToolCall)
      (tot : Nat) {tr k'},
      consumeChunks cancelAt it chunks k acc atc tot = .cancelled tr k' →
      ∃ pre, tr = pre ++ cancelTail ∧ noCheckTrue pre = true ∧ doneCount pre = 0 := by
  intro chunks
  induction chunks with
  | nil =>
    intro k acc atc tot tr k' h
    simp [consumeChunks] at h
  | cons ch rest ih =>
    intro k acc atc tot tr k' h
    simp only [consumeChunks] at h
    split at h
    · simp only [ConsumeOut.cancelled.injEq] at h
      exact ⟨[], by simp [h.1.symm], rfl, rfl⟩
    · cases hd : ch.delta with
      | none =>
        rw [hd] at h
        dsimp only at h
        obtain ⟨tr0, h0, rfl⟩ := consPrepend_cancelled h
        obtain ⟨pre, rfl, hp1, hp2⟩ := ih _ _ _ _ h0
        refine ⟨.check false :: pre, by simp, ?_, ?_⟩
        · simpa [noCheckTrue, isCheckTrue] using hp1
        · simpa [doneCount, isEvDone, List.countP_cons] using hp2
      | some d =>
        rw [hd] at h
        dsimp only at h
        cases hc : d.content with
        | none =>
          rw [hc] at h
          dsimp only at h
          obtain ⟨tr0, h0, rfl⟩ := consPrepend_cancelled h
          obtain ⟨pre, rfl, hp1, hp2⟩ := ih _ _ _ _ h0
          refine ⟨.check false :: .ev (.tokenCount (it + (tot + 1))) :: pre,
            by simp, ?_, ?_⟩
          · simpa [noCheckTrue, isCheckTrue] using hp1
          · simpa [doneCount, isEvDone, List.countP_cons] using hp2
        | some str =>
          rw [hc] at h
          dsimp only at h
          by_cases hs : str = ""
          · simp only [if_pos hs] at h
            obtain ⟨tr0, h0, rfl⟩ := consPrepend_cancelled h
            obtain ⟨pre, rfl, hp1, hp2⟩ := ih _ _ _ _ h0
            refine ⟨.check false :: .ev (.tokenCount (it + (tot + 1))) :: pre,
              by simp, ?_, ?_⟩
            · simpa [noCheckTrue, isCheckTrue] using hp1
            · simpa [doneCount, isEvDone, List.countP_cons] using hp2
          · simp only [if_neg hs] at h
            obtain ⟨tr0, h0, rfl⟩ := consPrepend_cancelled h
            obtain ⟨pre, rfl, hp1, hp2⟩ := ih _ _ _ _ h0
            refine ⟨.check false :: .ev (.content str) ::
              .ev (.tokenCount (it + (tot + 1))) :: pre, by simp, ?_, ?_⟩
            · simpa [noCheckTrue, isCheckTrue] using hp1
            · simpa [doneCount, isEvDone, List.countP_cons] using hp2

lemma noCheckTrue_append (a b : List TraceItem) :
    noCheckTrue (a ++ b) = (noCheckTrue a && noCheckTrue b) := by
  simp [noCheckTrue, List.all_append]

/-- Composition workhorse: a clean prefix (no observed cancellation, no
`done`) followed by a well-terminated suffix is well-terminated. -/
lemma trace_ok_of_clean_prefix {a b : List TraceItem}
    (hc : noCheckTrue a = true) (hd0 : doneCount a = 0)
    (h1 : cancelTailOk b = true) (h2 : doneCount b = 1) (h3 : endsWithDone b = true) :
    cancelTailOk (a ++ b) = true ∧ doneCount (a ++ b) = 1 ∧
    endsWithDone (a ++ b) = true := by
  refine ⟨?_, ?_, ?_⟩
  · rw [cancelTailOk_append_of_clean hc]
    exact h1
  · rw [doneCount_append, hd0, h2]
  · exact endsWithDone_append_right h3

lemma runToolsStream_completed_clean (env : ExecEnv) (cancelAt : Nat) :
    ∀ (tcs : List ToolCall) (st : AgentState) (k : Nat) {tr st2 k2},
      runToolsStream env cancelAt tcs st k = .completedT tr st2 k2 →
      noCheckTrue tr = true ∧ doneCount tr = 0 := by
  intro tcs
  induction tcs with
  | nil =>
    intro st k tr st2 k2 h
    simp only [runToolsStream, ToolPhaseOut.completedT.injEq] at h
    rw [← h.1]
    exact ⟨rfl, rfl⟩
  | cons tc rest ih =>
    intro st k tr st2 k2 h
    simp only [runToolsStream] at h
    split at h
    · simp at h
    · cases hrt : runToolsStream env cancelAt rest
          ⟨st.messages ++ [buildToolResultMessage tc (executeTool env tc)],
           st.history ++ [toolResultEntry tc (executeTool env tc)]⟩ (k + 1) with
      | cancelledT tr0 st0 k0 => rw [hrt] at h; simp at h
      | completedT tr0 st0 k0 =>
        rw [hrt] at h
        simp only [ToolPhaseOut.completedT.injEq] at h
        obtain ⟨rfl, _, _⟩ := h
        obtain ⟨c1, c2⟩ := ih _ _ hrt
        constructor
        · simpa [noCheckTrue, isCheckTrue] using c1
        · simpa [doneCount, isEvDone, List.countP_cons] using c2

lemma runToolsStream_cancelled_shape (env : ExecEnv) (cancelAt : Nat) :
    ∀ (tcs : List ToolCall) (st : AgentState) (k : Nat) {tr st2 k2},
      runToolsStream env cancelAt tcs st k = .cancelledT tr st2 k2 →
      ∃ pre, tr = pre ++ cancelTail ∧ noCheckTrue pre = true ∧ doneCount pre = 0 := by
  intro tcs
  induction tcs with
  | nil =>
    intro st k tr st2 k2 h
    simp [runToolsStream] at h
  | cons tc rest ih =>
    intro st k tr st2 k2 h
    simp only [runToolsStream] at h
    split at h
    · simp only [ToolPhaseOut.cancelledT.injEq] at h
      exact ⟨[], by simp [h.1.symm], rfl, rfl⟩
    · cases hrt : runToolsStream env cancelAt rest
          ⟨st.messages ++ [buildToolResultMessage tc (executeTool env tc)],
           st.history ++ [toolResultEntry tc (executeTool env tc)]⟩ (k + 1) with
      | completedT tr0 st0 k0 => rw [hrt] at h; simp at h
      | cancelledT tr0 st0 k0 =>
        rw [hrt] at h
        simp only [ToolPhaseOut.cancelledT.injEq] at h
        obtain ⟨rfl, _, _⟩ := h
        obtain ⟨pre, rfl, hp1, hp2⟩ := ih _ _ hrt
        refine ⟨.check false :: .exec tc ::
          .ev (.toolResultEv tc (executeTool env tc)) :: pre, by simp, ?_, ?_⟩
        · simpa [noCheckTrue, isCheckTrue] using hp1
        · simpa [doneCount, isEvDone, List.countP_cons] using hp2

lemma catchPath_trace (cancelAt : Nat) (st : AgentState) (e : JsError) (k : Nat) :
    cancelTailOk (catchPath cancelAt st e k).1 = true ∧
    doneCount (catchPath cancelAt st e k).1 = 1 ∧
    endsWithDone (catchPath cancelAt st e k).1 = true := by
  unfold catchPath
  split
  · exact ⟨rfl, rfl, rfl⟩
  · exact ⟨rfl, rfl, rfl⟩

lemma streamLoop_trace_ok (env : ExecEnv) (oracle : Nat → RoundStream)
    (ct : List Msg → Nat) (cancelAt : Nat) :
    ∀ fuel roundIdx k st it tot,
      cancelTailOk (streamLoop env oracle ct cancelAt fuel roundIdx k st it tot).1 = true ∧
      doneCount (streamLoop env oracle ct cancelAt fuel roundIdx k st it tot).1 = 1 ∧
      endsWithDone (streamLoop env oracle ct cancelAt fuel roundIdx k st it tot).1 = true := by
  intro fuel
  induction fuel with
  | zero => intro roundIdx k st it tot; exact ⟨rfl, rfl, rfl⟩
  | succ n ih =>
    intro roundIdx k st it tot
    simp only [streamLoop]
    split
    · exact ⟨rfl, rfl, rfl⟩
    · cases hcc : consumeChunks cancelAt it (oracle roundIdx).chunks (k + 1) "" [] tot with
      | cancelled tr k' =>
        obtain ⟨pre, rfl, hp1, hp2⟩ := consumeChunks_cancelled_shape _ _ _ _ _ _ _ hcc
        dsimp only
        have h := trace_ok_of_clean_prefix
          (a := .check false :: pre) (b := cancelTail)
          (by simpa [noCheckTrue, isCheckTrue] using hp1)
          (by simpa [doneCount, isEvDone, List.countP_cons] using hp2)
          cancelTail_facts.1 cancelTail_facts.2.1 cancelTail_facts.2.2.1
        simpa using h
      | drained tr acc atc tot' k' =>
        obtain ⟨hc1, hc2⟩ := consumeChunks_drained_clean _ _ _ _ _ _ _ hcc
        dsimp only
        cases ho : (oracle roundIdx).outcome with
        | error info =>
          dsimp only
          obtain ⟨q1, q2, q3⟩ := catchPath_trace cancelAt st (.api info) k'
          have h := trace_ok_of_clean_prefix (a := .check false :: tr)
            (b := (catchPath cancelAt st (.api info) k').1)
            (by simpa [noCheckTrue, isCheckTrue] using hc1)
            (by simpa [doneCount, isEvDone, List.countP_cons] using hc2)
            q1 q2 q3
          simpa using h
        | ok u =>
          dsimp only
          cases hb : buildAssistantMessage env.parse
              { content := if acc = "" then none else some acc
                tool_calls := if atc.length > 0 then some atc else none } with
          | error m =>
            dsimp only
            obtain ⟨q1, q2, q3⟩ := catchPath_trace cancelAt st (.js m) k'
            have htce : noCheckTrue
                (if atc.length > 0 then [TraceItem.ev (.toolCallsEv atc)] else []) = true := by
              split <;> rfl
            have htcd : doneCount
                (if atc.length > 0 then [TraceItem.ev (.toolCallsEv atc)] else []) = 0 := by
              split <;> rfl
            have h := trace_ok_of_clean_prefix
              (a := (.check false :: tr) ++
                (if atc.length > 0 then [TraceItem.ev (.toolCallsEv atc)] else []))
              (b := (catchPath cancelAt st (.js m) k').1)
              (by simp only [noCheckTrue_append, htce, Bool.and_true]
                  simpa [noCheckTrue, isCheckTrue] using hc1)
              (by simp only [doneCount_append, htcd, Nat.add_zero]
                  simpa [doneCount, isEvDone, List.countP_cons] using hc2)
              q1 q2 q3
            simpa using h
          | ok am =>
            dsimp only
            by_cases ha : atc.length > 0
            · simp only [if_pos ha]
              cases hrt : runToolsStream env cancelAt atc
                  ⟨st.messages ++ [am], st.history ++ [streamAssistantEntry acc atc]⟩ k' with
              | cancelledT tr2 st2 k2 =>
                obtain ⟨pre2, rfl, hq1, hq2⟩ := runToolsStream_cancelled_shape _ _ _ _ _ hrt
                have h := trace_ok_of_clean_prefix
                  (a := ((.check false :: tr) ++ [TraceItem.ev (.toolCallsEv atc)]) ++ pre2)
                  (b := cancelTail)
                  (by simp only [noCheckTrue_append, hq1, Bool.and_true]
                      simpa [noCheckTrue, isCheckTrue] using hc1)
                  (by simp only [doneCount_append, hq2, Nat.add_zero]
                      simpa [doneCount, isEvDone, List.countP_cons] using hc2)
                  cancelTail_facts.1 cancelTail_facts.2.1 cancelTail_facts.2.2.1
                simpa using h
              | completedT tr2 st2 k2 =>
                obtain ⟨hq1, hq2⟩ := runToolsStream_completed_clean _ _ _ _ _ hrt
                obtain ⟨i1, i2, i3⟩ := ih (roundIdx + 1) k2 st2 (ct st2.messages) tot'
                have hbOk : cancelTailOk (TraceItem.ev (.tokenCount (ct st2.messages + tot')) ::
                      (streamLoop env oracle ct cancelAt n (roundIdx + 1) k2 st2
                        (ct st2.messages) tot').1) = true ∧
                    doneCount (TraceItem.ev (.tokenCount (ct st2.messages + tot')) ::
                      (streamLoop env oracle ct cancelAt n (roundIdx + 1) k2 st2
                        (ct st2.messages) tot').1) = 1 ∧
                    endsWithDone (TraceItem.ev (.tokenCount (ct st2.messages + tot')) ::
                      (streamLoop env oracle ct cancelAt n (roundIdx + 1) k2 st2
                        (ct st2.messages) tot').1) = true := by
                  refine ⟨?_, ?_, ?_⟩
                  · rw [cancelTailOk_cons_ev]
                    exact i1
                  · simp [doneCount_cons, isEvDone, i2]
                  · have := endsWithDone_append_right
                      (a := [TraceItem.ev (.tokenCount (ct st2.messages + tot'))]) i3
                    simpa using this
                have h := trace_ok_of_clean_prefix
                  (a := ((.check false :: tr) ++ [TraceItem.ev (.toolCallsEv atc)]) ++ tr2)
                  (b := TraceItem.ev (.tokenCount (ct st2.messages + tot')) ::
                    (streamLoop env oracle ct cancelAt n (roundIdx + 1) k2 st2
                      (ct st2.messages) tot').1)
                  (by simp only [noCheckTrue_append, hq1, Bool.and_true]
                      simpa [noCheckTrue, isCheckTrue] using hc1)
                  (by simp only [doneCount_append, hq2, Nat.add_zero]
                      simpa [doneCount, isEvDone, List.countP_cons] using hc2)
                  hbOk.1 hbOk.2.1 hbOk.2.2
                simpa using h
            · simp only [if_neg ha]
              have h := trace_ok_of_clean_prefix
                (a := (.check false :: tr) ++ [])
                (b := [TraceItem.ev .done])
                (by simpa [noCheckTrue, isCheckTrue] using hc1)
                (by simpa [doneCount, isEvDone, List.countP_cons] using hc2)
                rfl rfl rfl
              simpa using h

lemma consumeChunks_cancels (cancelAt it : Nat) :
    ∀ (chunks : List StreamChunk) (k : Nat) (acc : String) (atc : List ToolCall)
      (tot : Nat), chunks ≠ [] → cancelAt < k + chunks.length →
      ∃ tr k', consumeChunks cancelAt it chunks k acc atc tot = .cancelled tr k' := by
  intro chunks
  induction chunks with
  | nil => intro k acc atc tot hne _; exact absurd rfl hne
  | cons ch rest ih =>
    intro k acc atc tot _ hlt
    by_cases hk : cancelAt ≤ k
    · exact ⟨cancelTail, k + 1, by simp [consumeChunks, if_pos hk]⟩
    · have hne' : rest ≠ [] := by
        intro he
        rw [he] at hlt
        simp at hlt
        omega
      have hlt' : cancelAt < (k + 1) + rest.length := by
        simp only [List.length_cons] at hlt
        omega
      cases hd : ch.delta with
      | none =>
        obtain ⟨tr, k', hrec⟩ := ih (k + 1) acc atc tot hne' hlt'
        refine ⟨TraceItem.check false :: tr, k', ?_⟩
        simp [consumeChunks, if_neg hk, hd, hrec, consPrepend]
      | some d =>
        obtain ⟨tr, k', hrec⟩ := ih (k + 1)
          (match d.content with
           | some s => if s = "" then acc else acc ++ s
           | none => acc)
          (match d.tool_calls with
           | some l => l.foldl addDeltaToolCall atc
           | none => atc)
          (tot + 1) hne' hlt'
        refine ⟨TraceItem.check false ::
          ((match d.content with
            | some s => if s = "" then [] else [TraceItem.ev (SEvent.content s)]
            | none => []) ++
            TraceItem.ev (SEvent.tokenCount (it + (tot + 1))) :: tr), k', ?_⟩
        simp [consumeChunks, if_neg hk, hd, hrec, consPrepend]

lemma streamLoop_cancelled_state (env : ExecEnv) (oracle : Nat → RoundStream)
    (ct : List Msg → Nat) (cancelAt : Nat) (fuel roundIdx k : Nat) (st : AgentState)
    (it tot : Nat) (h1 : k < cancelAt)
    (h2 : cancelAt ≤ k + (oracle roundIdx).chunks.length) :
    (streamLoop env oracle ct cancelAt fuel roundIdx k st it tot).2 = st := by
  cases fuel with
  | zero => rfl
  | succ n =>
    simp only [streamLoop]
    rw [if_neg (by omega : ¬ cancelAt ≤ k)]
    have hne : (oracle roundIdx).chunks ≠ [] := by
      intro he
      rw [he] at h2
      simp at h2
      omega
    obtain ⟨tr, k', hcc⟩ := consumeChunks_cancels cancelAt it
      (oracle roundIdx).chunks (k + 1) "" [] tot hne (by omega)
    rw [hcc]

/-- C4: every run of the streaming entry point produces a trace in which,
after the first check that observes cancellation, the only remaining items
are the final cancellation notice and the final `done` (`cancelTailOk`) —
in particular no tool is dispatched after cancellation is observed
(`noExecAfterCheckTrue`) — and the event sequence of every run (cancelled
or not) contains exactly one `done`, as its last item.  Moreover, when
cancellation is observed at a per-chunk check of the first round (the
signal is raised after the initial check but within the round's stream),
the partially accumulated assistant text and tool calls are not
persisted: the session state holds exactly the user message and user
entry appended to the prior state. -/
theorem processUserMessageStream_cancellation (env : ExecEnv)
    (oracleS : Nat → RoundStream) (ct : List Msg → Nat)
    (cancelAt maxToolRounds : Nat) (st : AgentState) (message : String) :
    cancelTailOk
      (processUserMessageStream env oracleS ct cancelAt maxToolRounds st message).1 = true ∧
    noExecAfterCheckTrue
      (processUserMessageStream env oracleS ct cancelAt maxToolRounds st message).1 = true ∧
    doneCount
      (processUserMessageStream env oracleS ct cancelAt maxToolRounds st message).1 = 1 ∧
    endsWithDone
      (processUserMessageStream env oracleS ct cancelAt maxToolRounds st message).1 = true ∧
    (1 ≤ cancelAt → cancelAt ≤ (oracleS 0).chunks.length →
      (processUserMessageStream env oracleS ct cancelAt maxToolRounds st message).2 =
        ⟨st.messages ++ [⟨"user", .str message⟩],
         st.history ++ [⟨.user, message, none, none, none, false⟩]⟩) := by
  obtain ⟨m1, m2, m3⟩ := streamLoop_trace_ok env oracleS ct cancelAt maxToolRounds 0 0
    ⟨st.messages ++ [⟨"user", .str message⟩],
     st.history ++ [⟨.user, message, none, none, none, false⟩]⟩
    (ct (st.messages ++ [⟨"user", .str message⟩])) 0
  refine ⟨?_, ?_, ?_, ?_, ?_⟩
  · unfold processUserMessageStream
    dsimp only
    rw [cancelTailOk_cons_ev]
    exact m1
  · apply cancelTailOk_implies_noExec
    unfold processUserMessageStream
    dsimp only
    rw [cancelTailOk_cons_ev]
    exact m1
  · unfold processUserMessageStream
    dsimp only
    simp [doneCount_cons, isEvDone, m2]
  · unfold processUserMessageStream
    dsimp only
    have h := endsWithDone_append_right
      (a := [TraceItem.ev (.tokenCount (ct (st.messages ++ [⟨"user", .str message⟩])))]) m3
    simpa using h
  · intro hc1 hc2
    unfold processUserMessageStream
    dsimp only
    exact streamLoop_cancelled_state env oracleS ct cancelAt maxToolRounds 0 0 _ _ 0
      (by omega) (by omega)

/-- Witness for `processUserMessageStream_cancellation`: cancellation
raised before the first chunk check of a three-chunk round. -/
theorem processUserMessageStream_cancellation_witness :
    cancelTailOk
      (processUserMessageStream env0 roundStream0 countTokens0 1 400 st0 "hi").1 = true ∧
    (processUserMessageStream env0 roundStream0 countTokens0 1 400 st0 "hi").2 =
      ⟨st0.messages ++ [⟨"user", .str "hi"⟩],
       st0.history ++ [⟨.user, "hi", none, none, none, false⟩]⟩ := by
  have h := processUserMessageStream_cancellation env0 roundStream0 countTokens0 1 400 st0 "hi"
  exact ⟨h.1, h.2.2.2.2 (by omega) (by simp [roundStream0])⟩

lemma list_get?_append_len {α : Type} : ∀ (l : List α) (x : α),
    (l ++ [x]).get? l.length = some x := by
  intro l x
  induction l with
  | nil => rfl
  | cons a t ih => simp [ih]

lemma list_get?_append_lt {α : Type} : ∀ (l1 l2 : List α) (n : Nat),
    n < l1.length → (l1 ++ l2).get? n = l1.get? n := by
  intro l1
  induction l1 with
  | nil => intro l2 n h; simp at h
  | cons a t ih =>
    intro l2 n h
    cases n with
    | zero => rfl
    | succ m => simpa using ih l2 m (by simpa using h)

lemma list_set_append_len {α : Type} : ∀ (l : List α) (x v : α),
    (l ++ [x]).set l.length v = l ++ [v] := by
  intro l x v
  induction l with
  | nil => rfl
  | cons a t ih => simp [List.set, ih]

/-- The freshly allocated array returned by `getChatHistory` holds the
agent's entries. -/
lemma getChatHistory_reads (hh : HistHeap) (a : Nat) :
    heapRead (getChatHistory hh a).2 (getChatHistory hh a).1 = heapRead hh a := by
  simp [heapRead, getChatHistory, list_get?_append_len]

/-- C10: `getChatHistory` returns a fresh array: it reads back the agent's
entries, and arbitrarily overwriting the returned array (adding or
removing elements) leaves the agent's internal history cell unchanged and
leaves the result of a later `getChatHistory` unchanged. -/
theorem getChatHistory_fresh (h : HistHeap) (agentRef : Nat)
    (hlt : agentRef < h.cells.length) :
    heapRead (getChatHistory h agentRef).2 (getChatHistory h agentRef).1 =
      heapRead h agentRef ∧
    ∀ mutated : List ChatEntry,
      heapRead (heapWrite (getChatHistory h agentRef).2
        (getChatHistory h agentRef).1 mutated) agentRef = heapRead h agentRef ∧
      heapRead
        (getChatHistory (heapWrite (getChatHistory h agentRef).2
          (getChatHistory h agentRef).1 mutated) agentRef).2
        (getChatHistory (heapWrite (getChatHistory h agentRef).2
          (getChatHistory h agentRef).1 mutated) agentRef).1 =
        heapRead h agentRef := by
  have hw : ∀ mutated : List ChatEntry,
      heapWrite (getChatHistory h agentRef).2 (getChatHistory h agentRef).1 mutated =
        ⟨h.cells ++ [mutated]⟩ := by
    intro mutated
    simp [getChatHistory, heapWrite, list_set_append_len]
  have h2 : ∀ mutated : List ChatEntry,
      heapRead ⟨h.cells ++ [mutated]⟩ agentRef = heapRead h agentRef := by
    intro mutated
    show ((h.cells ++ [mutated]).get? agentRef).getD [] = (h.cells.get? agentRef).getD []
    rw [list_get?_append_lt _ _ _ hlt]
  refine ⟨getChatHistory_reads h agentRef, ?_⟩
  intro mutated
  rw [hw]
  exact ⟨h2 mutated, by rw [getChatHistory_reads]; exact h2 mutated⟩

/-- Witness for `getChatHistory_fresh`: emptying the returned array leaves
the agent's one-cell history intact. -/
theorem getChatHistory_fresh_witness :
    heapRead (getChatHistory heap0 0).2 (getChatHistory heap0 0).1 = heapRead heap0 0 ∧
    heapRead (heapWrite (getChatHistory heap0 0).2 (getChatHistory heap0 0).1 [])
      0 = heapRead heap0 0 := by
  have h := getChatHistory_fresh heap0 0 (by simp [heap0])
  exact ⟨h.1, (h.2 []).1⟩

end GrokCli
